import Mathlib

/-!
Shallow embedding of the chapter-synthesis pipeline of TranscribeBot
(`backend/services/llm_chapter_generator.py` and `backend/utils/parser.py`),
together with proofs settling the frozen claims about it.

Modelling conventions:
* Python `int` is `Int`; Python floor division `//` is `Int.fdiv` and `%` is
  `Int.fmod` (both floor-style, matching Python for all signs).
* Python `None` for optional integers/strings is `Option`; JSON values and
  dynamically typed fields are the inductive `Json` below.  Integer JSON
  numerals are `Int`; numerals with a fraction or exponent part — which
  Python decodes to binary64 floats — are kept as exact decimal
  `mantissa·10^exponent` values (plus the `NaN`/`Infinity` extensions
  `json.loads` accepts); no code in the pipeline does arithmetic or
  comparisons on them under any theorem's hypotheses, so the exact
  representation is never coarser than binary64 where it matters.
* The two Python float constants 0.5 and 0.6 are modelled exactly as decimal
  fractions `(numerator, denominator)` of type `Int × Int`: `(5, 10)` and
  `(6, 10)`; no float arithmetic occurs anywhere in the pipeline.
* Python strings are processed through their character lists (`String.data`);
  `str.strip` is modelled over the ASCII whitespace characters, `splitlines`
  as splitting on the newline character (with `\r\n` line ends handled by the
  subsequent strip), which covers every input the pipeline treats specially.
* Fallible Python code (statements that can raise) is embedded in
  `Except PyErr` / `Option`; a raised exception is an `error` value.
* The network call `_call_volcengine_chat` (httpx) is not computable code of
  the pipeline; its result is passed to the orchestrator as an explicit
  `Option Json` argument, exactly the `Optional[dict]` the call returns.
-/

/-- The payload of a JSON float as decoded by `json.loads`: an exact decimal
`mantissa·10^exponent` (Python rounds it to binary64), or one of the
non-finite extensions (`Infinity`, `-Infinity`, `NaN`) that Python's decoder
accepts. -/
inductive FloatRep where
  | finite (mantissa exponent : Int) : FloatRep
  | inf (negative : Bool) : FloatRep
  | nan : FloatRep

/-- A JSON value / dynamically-typed Python object as it appears in the
pipeline. Integer numerals are `num`; numerals Python would decode to a
float are `float` (see the header comment). -/
inductive Json where
  | null : Json
  | bool (b : Bool) : Json
  | num (n : Int) : Json
  | float (v : FloatRep) : Json
  | str (s : String) : Json
  | arr (elems : List Json) : Json
  | obj (fields : List (String × Json)) : Json

namespace Json

/-- Python truthiness of a JSON value (`bool(x)`).  A float is falsy exactly
when it is `0.0`, i.e. its mantissa is zero (a tiny non-zero decimal that
binary64 would round to `0.0` is not distinguished; nothing in scope builds
one). -/
def truthy : Json → Bool
  | .null => false
  | .bool b => b
  | .num n => n != 0
  | .float (.finite m _) => m != 0
  | .float _ => true
  | .str s => s != ""
  | .arr xs => !xs.isEmpty
  | .obj fs => !fs.isEmpty

/-- `dict.get(key)` on an object's field list: the value stored under `key`
(last binding wins, as in a Python dict built by repeated insertion). -/
def lookup (fields : List (String × Json)) (key : String) : Option Json :=
  match fields with
  | [] => none
  | (k, v) :: rest => match lookup rest key with
      | some r => some r
      | none => if k = key then some v else none

/-- Python `a or b` on JSON values: `a` when truthy, else `b`. -/
def orElse (a b : Json) : Json := if a.truthy then a else b

end Json

/-- Exceptions that the embedded Python code can raise. -/
inductive PyErr where
  | keyError : PyErr
  | typeError : PyErr
  | attributeError : PyErr
deriving Repr, DecidableEq

/-- Python `a or b` for ints (`0` is falsy). -/
def pyOrInt (a b : Int) : Int := if a = 0 then b else a

/-- Python `a or b` where `a` is an optional int (`None` and `0` are falsy). -/
def pyOrOptInt (a : Option Int) (b : Int) : Int :=
  match a with
  | none => b
  | some v => if v = 0 then b else v

/-- Python list slice `l[:n]`, allowing a negative bound. -/
def pySliceTo {α : Type} (l : List α) (n : Int) : List α :=
  if 0 ≤ n then l.take n.toNat else l.take (l.length - (-n).toNat)

/-- The ASCII whitespace characters stripped by `str.strip()`.  (Python also
strips some rarer Unicode space characters; none is treated specially by the
pipeline.) -/
def isPyWs (c : Char) : Bool :=
  c = ' ' || c = '\t' || c = '\n' || c = '\r' || c = Char.ofNat 11 || c = Char.ofNat 12

/-- `str.strip()` on a character list. -/
def pyStripChars (l : List Char) : List Char :=
  ((l.dropWhile isPyWs).reverse.dropWhile isPyWs).reverse

/-- `str.strip()`. -/
def pyStrip (s : String) : String := ⟨pyStripChars s.data⟩

/-- `str.startswith(p)` on character lists. -/
def pyStartsWith (l : List Char) (pre : List Char) : Bool :=
  pre.isPrefixOf l

/-- Split a character list on a separator character (Python `str.split(sep)`
with a one-character separator: no merging of adjacent separators, an empty
input yields one empty piece). -/
def splitOnChar (sep : Char) : List Char → List (List Char)
  | [] => [[]]
  | c :: rest =>
      let r := splitOnChar sep rest
      if c = sep then [] :: r
      else match r with
        | [] => [[c]]
        | x :: xs => (c :: x) :: xs

/-- Python `str.splitlines()` modelled as splitting on the newline character:
no piece is produced for a trailing line terminator. -/
def pySplitLines (s : String) : List String :=
  if s.data = [] then []
  else
    let pieces := splitOnChar '\n' s.data
    let pieces := if pieces.getLast? = some [] then pieces.dropLast else pieces
    pieces.map (fun cs => ⟨cs⟩)

/-- `int(s)` for a decimal string: optional surrounding whitespace, optional
sign, at least one digit.  `none` models the `ValueError` Python raises
otherwise.  (Python additionally accepts underscore digit separators and
non-ASCII digits; the pipeline never produces such strings itself.) -/
def pyParseInt (s : String) : Option Int :=
  let core := pyStripChars s.data
  let neg : Bool := core.head? = some '-'
  let digits := if core.head? = some '-' || core.head? = some '+' then core.tail else core
  if digits = [] || !digits.all Char.isDigit then none
  else
    let n : Nat := digits.foldl (fun acc c => acc * 10 + (c.toNat - 48)) 0
    some (if neg then -(n : Int) else (n : Int))

/-- One persisted transcript line as consumed by the pipeline
(`models.TranscriptLine`; only the fields the pipeline reads). -/
structure TranscriptLine where
  start_sec : Int
  end_sec : Option Int
  text : String
deriving Repr, DecidableEq

/-- `ChapterData` (the dataclass in `llm_chapter_generator.py`).  `title`,
`summary` and `order` are dynamically typed in Python — the response parser
stores whatever JSON value the model returned — so they are `Json` here; the
code itself only ever writes strings / null / integers into them. -/
structure ChapterData where
  title : Json
  start_sec : Int
  end_sec : Option Int
  summary : Json
  tags : Option String
  source : String
  confidence : Option (Int × Int)
  order : Json

/-! ## `backend/utils/parser.py` -/

/-- `hms_to_seconds` from `utils/parser.py`: converts the three regex groups
(`int()` cannot fail on them — each group is exactly two digits). -/
def hms_to_seconds (hours minutes seconds : String) : Int :=
  (pyParseInt hours).getD 0 * 3600 + (pyParseInt minutes).getD 0 * 60 + (pyParseInt seconds).getD 0

/-- A direct translation of `TRANSCRIPT_PATTERN.match` on a character list:
`^\[(\d\x7b2\x7d):(\d\x7b2\x7d):(\d\x7b2\x7d)\s*-->\s*(\d\x7b2\x7d):(\d\x7b2\x7d):(\d\x7b2\x7d)]\s*(.*)$`.
Returns the seven groups.  `\s*` may consume newlines; `(.*)` cannot contain
one, and `$` also matches just before one final newline, which the last three
lines below reproduce. -/
def matchTranscriptChars (l : List Char) :
    Option (String × String × String × String × String × String × String) :=
  match l with
  | '[' :: a :: b :: ':' :: c :: d :: ':' :: e :: f :: rest =>
    if a.isDigit && b.isDigit && c.isDigit && d.isDigit && e.isDigit && f.isDigit then
      match rest.dropWhile isPyWs with
      | '-' :: '-' :: '>' :: rest2 =>
        match rest2.dropWhile isPyWs with
        | g :: h :: ':' :: i :: j :: ':' :: k :: m :: ']' :: rest4 =>
          if g.isDigit && h.isDigit && i.isDigit && j.isDigit && k.isDigit && m.isDigit then
            let afterWs := rest4.dropWhile isPyWs
            let body := if afterWs.getLast? = some '\n' then afterWs.dropLast else afterWs
            if body.contains '\n' then none
            else some (⟨[a, b]⟩, ⟨[c, d]⟩, ⟨[e, f]⟩, ⟨[g, h]⟩, ⟨[i, j]⟩, ⟨[k, m]⟩, ⟨body⟩)
          else none
        | _ => none
      | _ => none
    else none
  | _ => none

/-- `TRANSCRIPT_PATTERN.match(line)`. -/
def matchTranscript (line : String) :
    Option (String × String × String × String × String × String × String) :=
  matchTranscriptChars line.data

/-- The body of the `for raw_line in content.splitlines()` loop of
`parse_transcript_txt`, as a step function on the accumulated list. -/
def transcriptLineStep (acc : List (Int × Option Int × String)) (raw_line : String) :
    List (Int × Option Int × String) :=
  let line := pyStrip raw_line
  if line.data = [] || pyStartsWith line.data "#".data || pyStartsWith line.data "生成时间".data then
    acc
  else
    match matchTranscript line with
    | none => acc
    | some (g1, g2, g3, g4, g5, g6, g7) =>
      acc ++ [(hms_to_seconds g1 g2 g3, some (hms_to_seconds g4 g5 g6), pyStrip g7)]

/-- `parse_transcript_txt` from `utils/parser.py`. -/
def parse_transcript_txt (content : String) : List (Int × Option Int × String) :=
  (pySplitLines content).foldl transcriptLineStep []

/-- The contribution of a single raw line to `parse_transcript_txt`'s output:
`none` when the line is skipped, otherwise the emitted tuple. -/
def parseLineOpt (raw_line : String) : Option (Int × Option Int × String) :=
  let line := pyStrip raw_line
  if line.data = [] || pyStartsWith line.data "#".data || pyStartsWith line.data "生成时间".data then
    none
  else
    match matchTranscript line with
    | none => none
    | some (g1, g2, g3, g4, g5, g6, g7) =>
      some (hms_to_seconds g1 g2 g3, some (hms_to_seconds g4 g5 g6), pyStrip g7)

/-! ## `backend/services/llm_chapter_generator.py`: helpers -/

/-- `f"\x7bn:02d\x7d"`: zero-pad to width two (negative values render with
their sign, as in Python). -/
def pad2 (n : Int) : String :=
  if 0 ≤ n ∧ n < 10 then "0" ++ toString n else toString n

/-- `_format_seconds`. -/
def _format_seconds (total_seconds : Int) : String :=
  let hours := total_seconds.fdiv 3600
  let minutes := (total_seconds.fmod 3600).fdiv 60
  let seconds := total_seconds.fmod 60
  pad2 hours ++ ":" ++ pad2 minutes ++ ":" ++ pad2 seconds

/-- `_hms_to_seconds` (the service-local variant: splits on `:`, accepts
`MM:SS` or `HH:MM:SS`).  `none` models the exceptions the Python code can
raise here (`ValueError` from `int()` or from the component-count check). -/
def _hms_to_seconds (time_str : String) : Option Int := do
  let parts := (splitOnChar ':' time_str.data).map (fun cs => (⟨cs⟩ : String))
  let nums ← parts.mapM pyParseInt
  match nums with
  | [minutes, seconds] => some (minutes * 60 + seconds)
  | [hours, minutes, seconds] => some (hours * 3600 + minutes * 60 + seconds)
  | _ => none

/-- `_hms_to_seconds` applied to a dynamically-typed value: a non-string has
no `.split`, so Python raises `AttributeError` (also modelled as `none`,
since every call site catches all exceptions alike). -/
def hmsOfJson (v : Json) : Option Int :=
  match v with
  | .str s => _hms_to_seconds s
  | _ => none

/-! ## A model of `json.loads`

A recursive-descent parser for the JSON texts the model returns.  A numeral
without fraction or exponent part is an integer; one with either part — a
float in Python — is kept as an exact decimal (`FloatRep.finite`), and the
`NaN`/`Infinity`/`-Infinity` extensions Python's decoder accepts by default
are `FloatRep.nan`/`.inf`.  `\uXXXX` escapes outside the basic plane are not
modelled, and leading zeros in numerals are tolerated where Python rejects
them (never making a failing decode succeed the other way around for the
documents in scope).  `none` is `json.JSONDecodeError`. -/

/-- JSON insignificant whitespace. -/
def jsonSkipWs : List Char → List Char
  | c :: rest => if c = ' ' || c = '\t' || c = '\n' || c = '\r' then jsonSkipWs rest else c :: rest
  | [] => []

/-- Consume an expected literal character sequence. -/
def jsonLit : List Char → List Char → Option (List Char)
  | [], cs => some cs
  | l :: ls, c :: cs => if c = l then jsonLit ls cs else none
  | _ :: _, [] => none

/-- One-character escape codes inside a JSON string. -/
def jsonEsc (c : Char) : Option Char :=
  if c = '"' then some '"'
  else if c = '\\' then some '\\'
  else if c = '/' then some '/'
  else if c = 'b' then some (Char.ofNat 8)
  else if c = 'f' then some (Char.ofNat 12)
  else if c = 'n' then some '\n'
  else if c = 'r' then some '\r'
  else if c = 't' then some '\t'
  else none

/-- Hexadecimal digit value. -/
def hexVal (c : Char) : Option Nat :=
  if c.isDigit then some (c.toNat - 48)
  else if 'a' ≤ c ∧ c ≤ 'f' then some (c.toNat - 87)
  else if 'A' ≤ c ∧ c ≤ 'F' then some (c.toNat - 55)
  else none

/-- Body of a JSON string after the opening quote; returns the decoded
characters and the remaining input after the closing quote. -/
def jsonStrBody : Nat → List Char → Option (List Char × List Char)
  | 0, _ => none
  | _ + 1, [] => none
  | fuel + 1, c :: rest =>
    if c = '"' then some ([], rest)
    else if c = '\\' then
      match rest with
      | [] => none
      | e :: rest2 =>
        if e = 'u' then
          match rest2 with
          | h1 :: h2 :: h3 :: h4 :: rest3 => do
            let v1 ← hexVal h1
            let v2 ← hexVal h2
            let v3 ← hexVal h3
            let v4 ← hexVal h4
            let (body, r) ← jsonStrBody fuel rest3
            some (Char.ofNat (((v1 * 16 + v2) * 16 + v3) * 16 + v4) :: body, r)
          | _ => none
        else do
          let d ← jsonEsc e
          let (body, r) ← jsonStrBody fuel rest2
          some (d :: body, r)
    else do
      let (body, r) ← jsonStrBody fuel rest
      some (c :: body, r)

/-- Leading decimal digits of a number. -/
def jsonDigits : List Char → List Char × List Char
  | [] => ([], [])
  | c :: rest =>
    if c.isDigit then
      let (ds, r) := jsonDigits rest
      (c :: ds, r)
    else ([], c :: rest)

/-- Numeric value of a digit sequence. -/
def digitsVal (ds : List Char) : Nat :=
  ds.foldl (fun acc d => acc * 10 + (d.toNat - 48)) 0

/-- Exponent part of a JSON numeral (`[eE][+-]?digits`); `(0, input)` when
absent, `none` when `e`/`E` is present but malformed. -/
def jsonExpPart (l : List Char) : Option (Int × List Char) :=
  match l with
  | c :: r =>
    if c = 'e' || c = 'E' then
      match r with
      | '+' :: r1 =>
        (match jsonDigits r1 with
         | ([], _) => none
         | (ds, r2) => some (((digitsVal ds : Nat) : Int), r2))
      | '-' :: r1 =>
        (match jsonDigits r1 with
         | ([], _) => none
         | (ds, r2) => some (-((digitsVal ds : Nat) : Int), r2))
      | r1 =>
        (match jsonDigits r1 with
         | ([], _) => none
         | (ds, r2) => some (((digitsVal ds : Nat) : Int), r2))
    else some (0, l)
  | [] => some (0, [])

/-- Finish a numeral whose integer digits have been read: an `Int` when no
fraction or exponent part follows, otherwise the exact decimal float Python
would decode (and round to binary64). -/
def jsonNumberTail (neg : Bool) (intDigits : List Char) (r : List Char) :
    Option (Json × List Char) :=
  match r with
  | '.' :: r1 =>
    (match jsonDigits r1 with
     | ([], _) => none
     | (fds, r2) => do
        let (ex, r3) ← jsonExpPart r2
        let mant : Int := ((digitsVal (intDigits ++ fds) : Nat) : Int)
        some (.float (.finite (if neg then -mant else mant) (ex - fds.length)), r3))
  | _ =>
    if r.head? = some 'e' || r.head? = some 'E' then do
      let (ex, r3) ← jsonExpPart r
      let mant : Int := ((digitsVal intDigits : Nat) : Int)
      some (.float (.finite (if neg then -mant else mant) ex), r3)
    else
      some (.num (if neg then -((digitsVal intDigits : Nat) : Int)
        else ((digitsVal intDigits : Nat) : Int)), r)

mutual

/-- Parse one JSON value and return the remaining input. -/
def jsonValue : Nat → List Char → Option (Json × List Char)
  | 0, _ => none
  | fuel + 1, cs =>
    match jsonSkipWs cs with
    | [] => none
    | c :: rest =>
      if c = 'n' then (jsonLit ['u', 'l', 'l'] rest).map (fun r => (.null, r))
      else if c = 't' then (jsonLit ['r', 'u', 'e'] rest).map (fun r => (.bool true, r))
      else if c = 'f' then (jsonLit ['a', 'l', 's', 'e'] rest).map (fun r => (.bool false, r))
      else if c = '"' then
        (jsonStrBody fuel rest).map (fun (body, r) => (.str ⟨body⟩, r))
      else if c = '[' then
        match jsonSkipWs rest with
        | ']' :: r => some (.arr [], r)
        | r => (jsonElems fuel r).map (fun (xs, r2) => (.arr xs, r2))
      else if c = Char.ofNat 123 then
        match jsonSkipWs rest with
        | r =>
          if r.head? = some (Char.ofNat 125) then some (.obj [], r.tail)
          else (jsonFields fuel r).map (fun (fs, r2) => (.obj fs, r2))
      else if c = 'N' then (jsonLit ['a', 'N'] rest).map (fun r => (.float .nan, r))
      else if c = 'I' then
        (jsonLit ['n', 'f', 'i', 'n', 'i', 't', 'y'] rest).map
          (fun r => (.float (.inf false), r))
      else if c = '-' then
        match rest with
        | 'I' :: r1 =>
          (jsonLit ['n', 'f', 'i', 'n', 'i', 't', 'y'] r1).map
            (fun r => (.float (.inf true), r))
        | _ =>
          match jsonDigits rest with
          | ([], _) => none
          | (ds, r) => jsonNumberTail true ds r
      else if c.isDigit then
        match jsonDigits (c :: rest) with
        | (ds, r) => jsonNumberTail false ds r
      else none

/-- Comma-separated values up to the closing bracket (input starts at the
first value). -/
def jsonElems : Nat → List Char → Option (List Json × List Char)
  | 0, _ => none
  | fuel + 1, cs => do
    let (v, r) ← jsonValue fuel cs
    match jsonSkipWs r with
    | ',' :: r2 => (jsonElems fuel r2).map (fun (xs, r3) => (v :: xs, r3))
    | ']' :: r2 => some ([v], r2)
    | _ => none

/-- Comma-separated `"key": value` pairs up to the closing brace (input starts
at the first key). -/
def jsonFields : Nat → List Char → Option (List (String × Json) × List Char)
  | 0, _ => none
  | fuel + 1, cs =>
    match jsonSkipWs cs with
    | '"' :: r => do
      let (key, r2) ← jsonStrBody fuel r
      match jsonSkipWs r2 with
      | ':' :: r3 => do
        let (v, r4) ← jsonValue fuel r3
        match jsonSkipWs r4 with
        | ',' :: r5 => (jsonFields fuel r5).map (fun (fs, r6) => ((⟨key⟩, v) :: fs, r6))
        | c :: r5 => if c = Char.ofNat 125 then some ([(⟨key⟩, v)], r5) else none
        | [] => none
      | _ => none
    | _ => none

end

/-- `json.loads`: parse a complete JSON document (only insignificant
whitespace may remain). -/
def json_loads (s : String) : Option Json :=
  match jsonValue (s.length + 8) s.data with
  | some (j, rest) => if jsonSkipWs rest = [] then some j else none
  | none => none

/-! ## `_parse_llm_response` -/

/-- The body of the `try` block converting one element of the `chapters`
array (`for idx, ch in enumerate(chapters_raw)`); `none` models the
`except Exception: continue` path.  A non-dict element raises on its first
`.get`; a `title`/`summary`/`index` of any JSON type is stored as-is (no
conversion is attempted on them). -/
def parseChapterRow (idx : Nat) (ch : Json) : Option ChapterData :=
  match ch with
  | .obj fields => do
    let start_sec ← hmsOfJson ((Json.lookup fields "start").getD (.str "00:00:00"))
    let end_sec ← hmsOfJson ((Json.lookup fields "end").getD (.str "00:00:00"))
    let title := (Json.lookup fields "title").getD (.str ("Chapter " ++ toString (idx + 1)))
    let summary := Json.orElse ((Json.lookup fields "reason").getD .null)
      ((Json.lookup fields "summary").getD .null)
    let order := (Json.lookup fields "index").getD (.num ((idx : Int) + 1))
    some ⟨title, start_sec, some end_sec, summary, none, "auto_llm", none, order⟩
  | _ => none

/-- Python iteration over the value found under `"chapters"`: lists yield
their elements, strings their characters, dicts their keys; other values are
not iterable (`TypeError`). -/
def pyIter (v : Json) : Except PyErr (List Json) :=
  match v with
  | .arr xs => .ok xs
  | .str s => .ok (s.data.map (fun c => .str ⟨[c]⟩))
  | .obj fs => .ok (fs.map (fun kv => .str kv.1))
  | _ => .error .typeError

/-- Substring test (`needle in haystack` on strings). -/
def pyContainsSub (haystack needle : List Char) : Bool :=
  match haystack with
  | [] => needle.isEmpty
  | _ :: rest => needle.isPrefixOf haystack || pyContainsSub rest needle

/-- Python `"choices" in data` for an arbitrary value: key membership for a
dict, element membership for a list, substring test for a string, and
`TypeError` otherwise. -/
def containsChoicesKey (data : Json) : Except PyErr Bool :=
  match data with
  | .obj fs => .ok (Json.lookup fs "choices").isSome
  | .arr xs => .ok (xs.any (fun j => match j with | .str s => s = "choices" | _ => false))
  | .str s => .ok (pyContainsSub s.data "choices".data)
  | _ => .error .typeError

/-- `data["choices"]`, reached only when the membership test above returned
true: a dict yields the stored value; subscripting a list or a string with a
string raises `TypeError`. -/
def subscriptChoices (data : Json) : Except PyErr Json :=
  match data with
  | .obj fs => .ok ((Json.lookup fs "choices").getD .null)
  | _ => .error .typeError

/-- `choices[0]`, reached only when `choices` is truthy: first element of a
list, first character of a string; `0` is not a key of a JSON dict
(`KeyError`), and an int or bool is not subscriptable (`TypeError`). -/
def firstItem (choices : Json) : Except PyErr Json :=
  match choices with
  | .arr (x :: _) => .ok x
  | .arr [] => .error .typeError
  | .str s => match s.data with
      | c :: _ => .ok (.str ⟨[c]⟩)
      | [] => .error .typeError
  | .obj _ => .error .keyError
  | _ => .error .typeError

/-- `_parse_llm_response(data)`.  The `data` argument is the decoded HTTP
response body, an arbitrary JSON value; `.error` models an exception
escaping to the caller. -/
def _parse_llm_response (data : Json) : Except PyErr (List ChapterData) := do
  -- if not data or "choices" not in data or not data["choices"]: return []
  if !data.truthy then
    return []
  let hasChoices ← containsChoicesKey data
  if !hasChoices then
    return []
  let choices ← subscriptChoices data
  if !choices.truthy then
    return []
  -- content = data["choices"][0]["message"].get("content", "")
  let first ← firstItem choices
  let message ← match first with
    | .obj fs => match Json.lookup fs "message" with
        | some m => Except.ok m
        | none => Except.error .keyError
    | _ => Except.error .typeError
  let content ← match message with
    | .obj fs => Except.ok ((Json.lookup fs "content").getD (.str ""))
    | _ => Except.error .attributeError
  -- parsed = json.loads(content)  (JSONDecodeError is caught and yields [])
  let contentStr ← match content with
    | .str s => Except.ok s
    | _ => Except.error .typeError
  match json_loads contentStr with
  | none => return []
  | some parsed => do
    -- chapters_raw = parsed.get("chapters", [])
    let chapters_raw ← match parsed with
      | .obj fs => Except.ok ((Json.lookup fs "chapters").getD (.arr []))
      | _ => Except.error .attributeError
    let rows ← pyIter chapters_raw
    return (rows.enum.filterMap (fun (idx, ch) => parseChapterRow idx ch))

/-! ## Snapper, fallback, orchestrator -/

/-- Python `min(candidates)` over a list of ints (`0` for the empty list,
which the code never reaches). -/
def pyListMin (l : List Int) : Int :=
  match l with
  | [] => 0
  | x :: xs => xs.foldl min x

/-- Python `max(candidates)` over a list of ints. -/
def pyListMax (l : List Int) : Int :=
  match l with
  | [] => 0
  | x :: xs => xs.foldl max x

/-- `_nearest_time(target, candidates)`: the element minimising
`abs(x - target)`; `min` with a key keeps the first element attaining the
minimum. -/
def _nearest_time (target : Int) (candidates : List Int) : Int :=
  match candidates with
  | [] => target
  | c :: rest =>
    rest.foldl (fun best x =>
      if (x - target).natAbs < (best - target).natAbs then x else best) c

/-- The per-candidate body of `_snap_chapters_to_transcript`'s loop. -/
def snapOne (starts ends : List Int) (min_time max_time : Int) (ch : ChapterData) :
    ChapterData :=
  let start_raw := max (min ch.start_sec max_time) min_time
  let end_raw := max (min (ch.end_sec.getD ch.start_sec) max_time) min_time
  let snapped_start := _nearest_time start_raw starts
  let snapped_end0 := _nearest_time end_raw ends
  let snapped_end := if snapped_end0 < snapped_start then snapped_start else snapped_end0
  { ch with start_sec := snapped_start, end_sec := some snapped_end }

/-- The per-line end value used by the snapper:
`l.end_sec if l.end_sec is not None else l.start_sec`. -/
def lineEnd (l : TranscriptLine) : Int := l.end_sec.getD l.start_sec

/-- `_snap_chapters_to_transcript(chapters, transcript_lines)`. -/
def _snap_chapters_to_transcript (chapters : List ChapterData)
    (transcript_lines : List TranscriptLine) : List ChapterData :=
  if chapters.isEmpty || transcript_lines.isEmpty then chapters
  else
    let starts := transcript_lines.map (·.start_sec)
    let ends := transcript_lines.map lineEnd
    let min_time := pyListMin starts
    let max_time := pyListMax ends
    chapters.map (snapOne starts ends min_time max_time)

/-- The sort relation used by `sorted(transcript_lines, key=lambda l:
l.start_sec)` (a stable sort by this relation is exactly Python's stable
`sorted`). -/
def lineLe (a b : TranscriptLine) : Prop := a.start_sec ≤ b.start_sec

instance : DecidableRel lineLe := fun a b => Int.decLe _ _

/-- `duration` as computed by `_fallback_stub` (and, identically, by the
orchestrator): `sorted_lines[-1].end_sec or sorted_lines[-1].start_sec`,
then `max(duration, sorted_lines[-1].start_sec)`.  Note the Python `or`: an
`end_sec` of `0` or `None` falls back to the start. -/
def fallbackDuration (transcript_lines : List TranscriptLine) : Int :=
  let last := ((List.insertionSort lineLe transcript_lines).getLast?).getD ⟨0, none, ""⟩
  max (pyOrOptInt last.end_sec last.start_sec) last.start_sec

/-- The chapter built for index `idx` in `_fallback_stub`'s loop. -/
def fallbackChapter (step duration : Int) (idx : Nat) : ChapterData :=
  let start := (idx : Int) * step
  let endv := min (((idx : Int) + 1) * step) duration
  { title := .str ("Chapter " ++ toString (idx + 1) ++ ": " ++
      _format_seconds start ++ " - " ++ _format_seconds endv),
    start_sec := start,
    end_sec := some endv,
    summary := .str "Placeholder summary for this segment.",
    tags := none,
    source := "auto_stub",
    confidence := some (5, 10),
    order := .num ((idx : Int) + 1) }

/-- `_fallback_stub(transcript_lines, max_chapters)`. -/
def _fallback_stub (transcript_lines : List TranscriptLine) (max_chapters : Int) :
    List ChapterData :=
  if transcript_lines.isEmpty then []
  else
    let duration := fallbackDuration transcript_lines
    let chapter_count := min (pyOrInt max_chapters 10) 10
    let step := max (duration.fdiv chapter_count) 1
    (List.range chapter_count.toNat).map (fallbackChapter step duration)

/-- The sort key of `sorted(chapters_snapped, key=lambda c: (c.order or 0,
c.start_sec))`: `c.order or 0`. -/
def sortKeyJson (c : ChapterData) : Json := Json.orElse c.order (.num 0)

/-- Totalisation of the comparison of sort keys.  Python compares two `int`
(or `bool`, as ints) keys numerically, numbers and floats numerically, and
two `str` keys lexicographically, and raises `TypeError` on other (mixed)
pairs; the rank component below is exercised only outside the int-or-null
keys to which every theorem about the sort restricts itself, where this
comparison is exactly Python's. -/
def keyTriple : Json → ℕ × ℤ × String
  | .null => (0, 0, "")
  | .bool b => (1, if b then 1 else 0, "")
  | .num n => (2, n, "")
  | .float (.finite m _) => (6, m, "")
  | .float _ => (6, 0, "")
  | .str s => (3, 0, s)
  | .arr _ => (4, 0, "")
  | .obj _ => (5, 0, "")

/-- Lexicographic strict comparison on key triples. -/
def tripLt (x y : ℕ × ℤ × String) : Bool :=
  x.1 < y.1 || (x.1 = y.1 && (x.2.1 < y.2.1 || (x.2.1 = y.2.1 && x.2.2 < y.2.2)))

/-- Strict comparison of two sort keys. -/
def keyLtB (a b : Json) : Bool :=
  tripLt (keyTriple a) (keyTriple b)

/-- Python's tuple comparison `(c.order or 0, c.start_sec) <= ...` as used by
the stable sort. -/
def chapterLeB (a b : ChapterData) : Bool :=
  let ka := sortKeyJson a
  let kb := sortKeyJson b
  keyLtB ka kb || (!keyLtB ka kb && !keyLtB kb ka && a.start_sec ≤ b.start_sec)

/-- The sort relation on chapters. -/
def chapterLe (a b : ChapterData) : Prop := chapterLeB a b = true

instance : DecidableRel chapterLe := fun a b => instDecidableEqBool _ _

/-- `generate_chapters_from_transcript(transcript_lines, max_chapters)`.

The network call `_call_volcengine_chat(prompt)` is abstracted by the extra
argument `api_response`, its `Optional[dict]` result (the prompt interpolated
from the transcript affects nothing but that call).  `.error` models an
exception escaping to the caller. -/
def generate_chapters_from_transcript (transcript_lines : List TranscriptLine)
    (max_chapters : Int) (api_response : Option Json) :
    Except PyErr (List ChapterData) := do
  if transcript_lines.isEmpty then
    return []
  let sorted_lines := List.insertionSort lineLe transcript_lines
  -- chapters = _parse_llm_response(api_response) if api_response else []
  let chapters ← match api_response with
    | none => Except.ok []
    | some d => if d.truthy then _parse_llm_response d else Except.ok []
  if chapters.isEmpty then
    -- fallback stub (over the caller-supplied, unsorted list)
    return _fallback_stub transcript_lines max_chapters
  else
    let chapters_snapped := _snap_chapters_to_transcript chapters sorted_lines
    let chapters_sorted := List.insertionSort chapterLe chapters_snapped
    return pySliceTo chapters_sorted (pyOrInt max_chapters 10)

/-- `regenerate_single_chapter(transcript_lines, new_start_sec,
existing_title, existing_summary)`. -/
def regenerate_single_chapter (transcript_lines : List TranscriptLine)
    (new_start_sec : Int) (existing_title : String)
    (existing_summary : Option String) : ChapterData :=
  let context_line := transcript_lines.find? (fun l => new_start_sec ≤ l.start_sec)
  let context_text := match context_line with
    | some l => l.text
    | none => "No nearby transcript context."
  let title := "Adjusted Chapter @ " ++ _format_seconds new_start_sec
  let summary := "Auto-updated using nearby transcript: " ++ (⟨context_text.data.take 120⟩ : String)
  { title := .str title,
    start_sec := new_start_sec,
    end_sec := none,
    summary := .str summary,
    tags := none,
    source := "ai_edit",
    confidence := some (6, 10),
    order := .null }

/-! ## Claim-side vocabulary -/

/-- The integer sort key `(c.order or 0)` of a chapter whose `order` is an
integer or null (`0` for any other value; theorems using this restrict
`order` to integers/null, where it is exactly Python's key). -/
def orderKeyInt (c : ChapterData) : Int :=
  match Json.orElse c.order (.num 0) with
  | .num n => n
  | _ => 0

/-- "Sorted ascending by `(order, start_sec)`" as the claims state it. -/
def chapterSpecLe (a b : ChapterData) : Prop :=
  orderKeyInt a < orderKeyInt b ∨ (orderKeyInt a = orderKeyInt b ∧ a.start_sec ≤ b.start_sec)

/-- Every line's start is at most its end-or-start (the `TranscriptSegment`
data-model invariant `end_sec ≥ start_sec`). -/
def linesWellFormed (transcript_lines : List TranscriptLine) : Prop :=
  ∀ l ∈ transcript_lines, l.start_sec ≤ lineEnd l

/-- The provider-contract shape of a chat response under which
`_parse_llm_response` is exception-free: a JSON object whose `choices` value,
when present and truthy, is a non-empty array whose first element is an
object with a `message` object, whose `content` (default `""`) is a string
that either fails to decode or decodes to a JSON object whose `chapters`
value (default `[]`) is an array. -/
def goodResponse (data : Json) : Bool :=
  match data with
  | .obj fields =>
    match Json.lookup fields "choices" with
    | none => true
    | some choices =>
      !choices.truthy ||
      match choices with
      | .arr (first :: _) =>
        match first with
        | .obj ffields =>
          match Json.lookup ffields "message" with
          | some (.obj mfields) =>
            match (Json.lookup mfields "content").getD (.str "") with
            | .str s =>
              match json_loads s with
              | none => true
              | some (.obj pfields) =>
                match (Json.lookup pfields "chapters").getD (.arr []) with
                | .arr _ => true
                | _ => false
              | some _ => false
            | _ => false
          | _ => false
        | _ => false
      | _ => false
  | _ => false

/-! # Theorems

General-purpose lemmas first, then one theorem per claim (with its witness or
counterexample where required). -/

lemma foldl_min_le_init (l : List Int) (a : Int) : l.foldl min a ≤ a := by
  induction l generalizing a with
  | nil => simp
  | cons x xs ih => exact le_trans (ih (min a x)) (min_le_left a x)

lemma foldl_min_le_mem {l : List Int} {x : Int} (hx : x ∈ l) (a : Int) :
    l.foldl min a ≤ x := by
  induction l generalizing a with
  | nil => cases hx
  | cons y ys ih =>
    rcases List.mem_cons.mp hx with rfl | hmem
    · exact le_trans (foldl_min_le_init ys (min a x)) (min_le_right a x)
    · exact ih hmem (min a y)

lemma foldl_min_mem (l : List Int) (a : Int) : l.foldl min a = a ∨ l.foldl min a ∈ l := by
  induction l generalizing a with
  | nil => simp
  | cons x xs ih =>
    rcases ih (min a x) with h | h
    · rcases min_choice a x with hm | hm
      · left; simpa [hm] using h
      · right; simp only [List.foldl_cons]; rw [h, hm]; exact List.mem_cons_self x xs
    · right; exact List.mem_cons_of_mem x h

lemma foldl_max_init_le (l : List Int) (a : Int) : a ≤ l.foldl max a := by
  induction l generalizing a with
  | nil => simp
  | cons x xs ih => exact le_trans (le_max_left a x) (ih (max a x))

lemma foldl_max_mem_le {l : List Int} {x : Int} (hx : x ∈ l) (a : Int) :
    x ≤ l.foldl max a := by
  induction l generalizing a with
  | nil => cases hx
  | cons y ys ih =>
    rcases List.mem_cons.mp hx with rfl | hmem
    · exact le_trans (le_max_right a x) (foldl_max_init_le ys (max a x))
    · exact ih hmem (max a y)

lemma foldl_max_mem (l : List Int) (a : Int) : l.foldl max a = a ∨ l.foldl max a ∈ l := by
  induction l generalizing a with
  | nil => simp
  | cons x xs ih =>
    rcases ih (max a x) with h | h
    · rcases max_choice a x with hm | hm
      · left; simpa [hm] using h
      · right; simp only [List.foldl_cons]; rw [h, hm]; exact List.mem_cons_self x xs
    · right; exact List.mem_cons_of_mem x h

lemma pyListMin_le {l : List Int} {x : Int} (hx : x ∈ l) : pyListMin l ≤ x := by
  cases l with
  | nil => cases hx
  | cons y ys =>
    rcases List.mem_cons.mp hx with rfl | hmem
    · exact foldl_min_le_init ys x
    · exact foldl_min_le_mem hmem y

lemma le_pyListMax {l : List Int} {x : Int} (hx : x ∈ l) : x ≤ pyListMax l := by
  cases l with
  | nil => cases hx
  | cons y ys =>
    rcases List.mem_cons.mp hx with rfl | hmem
    · exact foldl_max_init_le ys x
    · exact foldl_max_mem_le hmem y

lemma pyListMin_mem {l : List Int} (h : l ≠ []) : pyListMin l ∈ l := by
  cases l with
  | nil => exact absurd rfl h
  | cons y ys =>
    rcases foldl_min_mem ys y with h1 | h1
    · rw [pyListMin, h1]; exact List.mem_cons_self y ys
    · exact List.mem_cons_of_mem y h1

lemma pyListMax_mem {l : List Int} (h : l ≠ []) : pyListMax l ∈ l := by
  cases l with
  | nil => exact absurd rfl h
  | cons y ys =>
    rcases foldl_max_mem ys y with h1 | h1
    · rw [pyListMax, h1]; exact List.mem_cons_self y ys
    · exact List.mem_cons_of_mem y h1

lemma pyListMin_perm {l₁ l₂ : List Int} (h : l₁.Perm l₂) (hne : l₁ ≠ []) :
    pyListMin l₁ = pyListMin l₂ := by
  have hne₂ : l₂ ≠ [] := by
    intro h2
    exact hne (List.Perm.eq_nil (h2 ▸ h))
  have h₁ := pyListMin_mem hne
  have h₂ := pyListMin_mem hne₂
  exact le_antisymm (pyListMin_le (h.mem_iff.mpr h₂)) (pyListMin_le (h.symm.mem_iff.mpr h₁))

lemma pyListMax_perm {l₁ l₂ : List Int} (h : l₁.Perm l₂) (hne : l₁ ≠ []) :
    pyListMax l₁ = pyListMax l₂ := by
  have hne₂ : l₂ ≠ [] := by
    intro h2
    exact hne (List.Perm.eq_nil (h2 ▸ h))
  have h₁ := pyListMax_mem hne
  have h₂ := pyListMax_mem hne₂
  exact le_antisymm (le_pyListMax (h.symm.mem_iff.mpr h₁)) (le_pyListMax (h.mem_iff.mpr h₂))

lemma nearest_foldl_mem (rest : List Int) (t c : Int) :
    rest.foldl (fun best x => if (x - t).natAbs < (best - t).natAbs then x else best) c
      ∈ c :: rest := by
  induction rest generalizing c with
  | nil => simp
  | cons y ys ih =>
    simp only [List.foldl_cons]
    rcases List.mem_cons.mp (ih (if (y - t).natAbs < (c - t).natAbs then y else c)) with h | h
    · rw [h]
      by_cases hc : (y - t).natAbs < (c - t).natAbs
      · simp [hc]
      · simp [hc]
    · exact List.mem_cons_of_mem c (List.mem_cons_of_mem y h)

lemma nearest_mem {t : Int} {l : List Int} (h : l ≠ []) : _nearest_time t l ∈ l := by
  cases l with
  | nil => exact absurd rfl h
  | cons c rest => exact nearest_foldl_mem rest t c

/-- **C8** (confirmed): the Response Parser is a deterministic pure function
of its input: two calls on the same raw response value yield identical
candidate sequences.  (The embedded `_parse_llm_response` reads no state
besides its argument, exactly like the Python function, whose only side
effect is logging.) -/
theorem C8_parse_llm_response_deterministic (data : Json) :
    _parse_llm_response data = _parse_llm_response data := rfl

/-- **C10** (confirmed): `regenerate_single_chapter` is independent of its
`existing_title` and `existing_summary` arguments: two calls differing only
in them return identical chapters. -/
theorem C10_regenerate_ignores_existing_fields
    (transcript_lines : List TranscriptLine) (new_start_sec : Int)
    (t₁ t₂ : String) (s₁ s₂ : Option String) :
    regenerate_single_chapter transcript_lines new_start_sec t₁ s₁ =
      regenerate_single_chapter transcript_lines new_start_sec t₂ s₂ := rfl

/-- **C6** (confirmed): `regenerate_single_chapter` returns a single chapter
whose summary quotes up to 120 characters of the text of the first segment
(in supplied order) whose start is ≥ `new_start_sec` (or the placeholder when
none exists), with `start_sec = new_start_sec`, `source = "ai_edit"`,
`confidence = 0.6`, `end_sec = null` and `order = null`; and with
`new_start_sec = 15` against segments starting at 0, 10, 20 the summary
quotes the text of the segment starting at 20. -/
theorem C6_regenerate_single_chapter
    (transcript_lines : List TranscriptLine) (new_start_sec : Int)
    (existing_title : String) (existing_summary : Option String) :
    (regenerate_single_chapter transcript_lines new_start_sec existing_title
        existing_summary).start_sec = new_start_sec ∧
    (regenerate_single_chapter transcript_lines new_start_sec existing_title
        existing_summary).source = "ai_edit" ∧
    (regenerate_single_chapter transcript_lines new_start_sec existing_title
        existing_summary).confidence = some (6, 10) ∧
    (regenerate_single_chapter transcript_lines new_start_sec existing_title
        existing_summary).end_sec = none ∧
    (regenerate_single_chapter transcript_lines new_start_sec existing_title
        existing_summary).order = .null ∧
    (regenerate_single_chapter transcript_lines new_start_sec existing_title
        existing_summary).summary =
      .str ("Auto-updated using nearby transcript: " ++
        (⟨(((transcript_lines.find? (fun l => new_start_sec ≤ l.start_sec)).map
            TranscriptLine.text).getD "No nearby transcript context.").data.take 120⟩ :
            String)) ∧
    (regenerate_single_chapter
        [⟨0, some 10, "opening"⟩, ⟨10, some 20, "middle"⟩, ⟨20, some 30, "closing"⟩]
        15 existing_title existing_summary).summary =
      .str "Auto-updated using nearby transcript: closing" := by
  refine ⟨rfl, rfl, rfl, rfl, rfl, ?_, ?_⟩
  · cases h : transcript_lines.find? (fun l => new_start_sec ≤ l.start_sec) with
    | none => simp [regenerate_single_chapter, h]
    | some l => simp [regenerate_single_chapter, h]
  · rfl

/-- **C7** (confirmed): the Snapper rewrites only `start_sec`/`end_sec` —
every output chapter keeps its candidate's `title`, `summary`, `tags`,
`source`, `confidence` and `order` (positionally) — and returns the
candidate list unchanged when either input is empty. -/
theorem C7_snap_frame_effect (cands : List ChapterData) (segs : List TranscriptLine) :
    ((cands = [] ∨ segs = []) → _snap_chapters_to_transcript cands segs = cands) ∧
    (_snap_chapters_to_transcript cands segs).length = cands.length ∧
    (∀ i : Nat,
      ((_snap_chapters_to_transcript cands segs)[i]?.map ChapterData.title) =
        (cands[i]?.map ChapterData.title) ∧
      ((_snap_chapters_to_transcript cands segs)[i]?.map ChapterData.summary) =
        (cands[i]?.map ChapterData.summary) ∧
      ((_snap_chapters_to_transcript cands segs)[i]?.map ChapterData.tags) =
        (cands[i]?.map ChapterData.tags) ∧
      ((_snap_chapters_to_transcript cands segs)[i]?.map ChapterData.source) =
        (cands[i]?.map ChapterData.source) ∧
      ((_snap_chapters_to_transcript cands segs)[i]?.map ChapterData.confidence) =
        (cands[i]?.map ChapterData.confidence) ∧
      ((_snap_chapters_to_transcript cands segs)[i]?.map ChapterData.order) =
        (cands[i]?.map ChapterData.order)) := by
  refine ⟨?_, ?_, ?_⟩
  · intro h
    unfold _snap_chapters_to_transcript
    rcases h with h | h <;> simp [h]
  · unfold _snap_chapters_to_transcript
    by_cases hc : cands.isEmpty || segs.isEmpty <;> simp [hc]
  · intro i
    unfold _snap_chapters_to_transcript
    by_cases hc : cands.isEmpty || segs.isEmpty
    · simp [hc]
    · simp only [hc, if_false, Bool.false_eq_true, List.getElem?_map, Option.map_map]
      refine ⟨?_, ?_, ?_, ?_, ?_, ?_⟩ <;>
        · cases cands[i]? with
          | none => rfl
          | some c => rfl

/-- Witness for C7 at concrete inputs (both the empty no-op branch and the
length preservation). -/
theorem C7_witness :
    _snap_chapters_to_transcript [] [⟨0, some 5, "a"⟩] = [] ∧
    (_snap_chapters_to_transcript
        [⟨.str "T", 7, some 3, .null, none, "auto_llm", none, .num 1⟩]
        [⟨0, some 5, "a"⟩]).length =
      ([⟨.str "T", 7, some 3, .null, none, "auto_llm", none, .num 1⟩] :
        List ChapterData).length :=
  ⟨(C7_snap_frame_effect [] [⟨0, some 5, "a"⟩]).1 (Or.inl rfl),
   (C7_snap_frame_effect [⟨.str "T", 7, some 3, .null, none, "auto_llm", none, .num 1⟩]
      [⟨0, some 5, "a"⟩]).2.1⟩

lemma snapOne_spec (starts ends : List Int) (min_time max_time : Int) (c : ChapterData)
    (hst : starts ≠ []) (hen : ends ≠ []) :
    (snapOne starts ends min_time max_time c).start_sec ∈ starts ∧
    ∃ e, (snapOne starts ends min_time max_time c).end_sec = some e ∧
      (e ∈ ends ∨ e = (snapOne starts ends min_time max_time c).start_sec) ∧
      (snapOne starts ends min_time max_time c).start_sec ≤ e := by
  unfold snapOne
  set ss := _nearest_time (max (min c.start_sec max_time) min_time) starts with hss
  set se := _nearest_time (max (min (c.end_sec.getD c.start_sec) max_time) min_time) ends
    with hse
  have hmemS : ss ∈ starts := nearest_mem hst
  have hmemE : se ∈ ends := nearest_mem hen
  by_cases h : se < ss
  · simp only [h, if_true]
    exact ⟨hmemS, ss, rfl, Or.inr rfl, le_refl ss⟩
  · simp only [h, if_false]
    exact ⟨hmemS, se, rfl, Or.inl hmemE, Int.not_lt.mp h⟩

/-- **C2** counterexample: with well-formed segments `(0,10)` and
`(100,110)` and a single candidate `(start=100, end=30)`, the snapper's
inverted-range repair forces `end := start = 100`, a value that is *not* a
member of the segment end-or-start set `\x7b10, 110\x7d` — refuting the claim that
every output `end_sec` is an exact member of that set. -/
theorem C2_counterexample :
    (_snap_chapters_to_transcript
        [⟨.str "T", 100, some 30, .null, none, "auto_llm", none, .num 1⟩]
        [⟨0, some 10, "a"⟩, ⟨100, some 110, "b"⟩]).map
      (fun c => (c.start_sec, c.end_sec)) = [(100, some 100)] ∧
    ([⟨0, some 10, "a"⟩, ⟨100, some 110, "b"⟩] : List TranscriptLine).map lineEnd
      = [10, 110] ∧
    linesWellFormed [⟨0, some 10, "a"⟩, ⟨100, some 110, "b"⟩] ∧
    ¬ ((100 : Int) ∈ ([10, 110] : List Int)) := by
  refine ⟨rfl, rfl, ?_, by decide⟩
  intro l hl
  fin_cases hl <;> decide

/-- **C2** (corrected): for every candidate list and non-empty segment list,
every returned chapter's `start_sec` is an exact member of the segment
start set and its `end_sec` is an exact member of the end-or-start set *or*
(when the inverted-range repair fired) equals the chapter's own snapped
`start_sec`; no returned chapter has `end_sec < start_sec`; and — provided
the segments satisfy the data model's `end_sec ≥ start_sec` invariant — both
values lie within `[min_time, max_time]`. -/
theorem C2_snap_membership (cands : List ChapterData) (segs : List TranscriptLine)
    (hseg : segs ≠ []) :
    ∀ c' ∈ _snap_chapters_to_transcript cands segs,
      c'.start_sec ∈ segs.map TranscriptLine.start_sec ∧
      (∃ e, c'.end_sec = some e ∧ (e ∈ segs.map lineEnd ∨ e = c'.start_sec) ∧
        c'.start_sec ≤ e) ∧
      (linesWellFormed segs →
        pyListMin (segs.map TranscriptLine.start_sec) ≤ c'.start_sec ∧
        c'.start_sec ≤ pyListMax (segs.map lineEnd) ∧
        ∀ e, c'.end_sec = some e →
          pyListMin (segs.map TranscriptLine.start_sec) ≤ e ∧
          e ≤ pyListMax (segs.map lineEnd)) := by
  intro c' hc'
  have hsegE : segs.isEmpty = false := by simpa [List.isEmpty_iff] using hseg
  unfold _snap_chapters_to_transcript at hc'
  by_cases hcs : cands.isEmpty
  · rw [List.isEmpty_iff] at hcs
    simp [hcs] at hc'
  · have hcsE : cands.isEmpty = false := by simpa using hcs
    simp only [hcsE, hsegE, Bool.or_self, if_false, Bool.false_eq_true] at hc'
    obtain ⟨c, _, rfl⟩ := List.mem_map.mp hc'
    have hst : segs.map TranscriptLine.start_sec ≠ [] := by
      simpa using hseg
    have hen : segs.map lineEnd ≠ [] := by
      simpa using hseg
    obtain ⟨hmemS, e, hsome, hends, hle⟩ :=
      snapOne_spec (segs.map TranscriptLine.start_sec) (segs.map lineEnd)
        (pyListMin (segs.map TranscriptLine.start_sec))
        (pyListMax (segs.map lineEnd)) c hst hen
    -- every start is ≤ the max end-or-start, and every end-or-start is ≥ the
    -- min start, once each segment satisfies start ≤ end-or-start
    have startBound : linesWellFormed segs →
        ∀ x ∈ segs.map TranscriptLine.start_sec,
          pyListMin (segs.map TranscriptLine.start_sec) ≤ x ∧
          x ≤ pyListMax (segs.map lineEnd) := by
      intro hwf x hx
      refine ⟨pyListMin_le hx, ?_⟩
      obtain ⟨l, hl, rfl⟩ := List.mem_map.mp hx
      exact le_trans (hwf l hl) (le_pyListMax (List.mem_map.mpr ⟨l, hl, rfl⟩))
    have endBound : linesWellFormed segs →
        ∀ x ∈ segs.map lineEnd,
          pyListMin (segs.map TranscriptLine.start_sec) ≤ x ∧
          x ≤ pyListMax (segs.map lineEnd) := by
      intro hwf x hx
      refine ⟨?_, le_pyListMax hx⟩
      obtain ⟨l, hl, rfl⟩ := List.mem_map.mp hx
      exact le_trans (pyListMin_le (List.mem_map.mpr ⟨l, hl, rfl⟩)) (hwf l hl)
    refine ⟨hmemS, ⟨e, hsome, hends, hle⟩, ?_⟩
    intro hwf
    obtain ⟨h1, h2⟩ := startBound hwf _ hmemS
    refine ⟨h1, h2, ?_⟩
    intro e' he'
    rw [hsome] at he'
    obtain rfl : e = e' := by injection he'
    rcases hends with hmemE | rfl
    · exact endBound hwf _ hmemE
    · exact ⟨h1, h2⟩

/-- Witness for C2 at a concrete input. -/
theorem C2_witness :
    ([⟨0, some 10, "a"⟩, ⟨100, some 110, "b"⟩] : List TranscriptLine) ≠ [] ∧
    ∀ c' ∈ _snap_chapters_to_transcript
        [⟨.str "T", 100, some 30, .null, none, "auto_llm", none, .num 1⟩]
        [⟨0, some 10, "a"⟩, ⟨100, some 110, "b"⟩],
      c'.start_sec ∈ ([⟨0, some 10, "a"⟩, ⟨100, some 110, "b"⟩] :
          List TranscriptLine).map TranscriptLine.start_sec ∧
      (∃ e, c'.end_sec = some e ∧
        (e ∈ ([⟨0, some 10, "a"⟩, ⟨100, some 110, "b"⟩] :
            List TranscriptLine).map lineEnd ∨ e = c'.start_sec) ∧
        c'.start_sec ≤ e) ∧
      (linesWellFormed [⟨0, some 10, "a"⟩, ⟨100, some 110, "b"⟩] →
        pyListMin (([⟨0, some 10, "a"⟩, ⟨100, some 110, "b"⟩] :
            List TranscriptLine).map TranscriptLine.start_sec) ≤ c'.start_sec ∧
        c'.start_sec ≤ pyListMax (([⟨0, some 10, "a"⟩, ⟨100, some 110, "b"⟩] :
            List TranscriptLine).map lineEnd) ∧
        ∀ e, c'.end_sec = some e →
          pyListMin (([⟨0, some 10, "a"⟩, ⟨100, some 110, "b"⟩] :
              List TranscriptLine).map TranscriptLine.start_sec) ≤ e ∧
          e ≤ pyListMax (([⟨0, some 10, "a"⟩, ⟨100, some 110, "b"⟩] :
              List TranscriptLine).map lineEnd)) :=
  ⟨by decide,
   C2_snap_membership
     [⟨.str "T", 100, some 30, .null, none, "auto_llm", none, .num 1⟩]
     [⟨0, some 10, "a"⟩, ⟨100, some 110, "b"⟩] (by decide)⟩

/-- **C9** counterexample: an element of the `chapters` array that lacks a
`"start"` field but whose `"end"` field does not convert (`"bad"`) *is*
skipped — the parser returns no candidate for it — refuting the claim that
every element lacking a `start`/`end` field is kept with a default of 0. -/
theorem C9_counterexample :
    Json.lookup [("end", Json.str "bad")] "start" = none ∧
    _parse_llm_response (.obj [("choices", .arr [.obj [("message", .obj [("content",
      .str "\x7b\"chapters\": [\x7b\"end\": \"bad\"\x7d]\x7d")])]])]) = .ok [] :=
  ⟨rfl, rfl⟩

/-- **C9** (corrected): an object element of the `chapters` array that lacks
a `"start"` (resp. `"end"`) field is not skipped for that reason: the parser
substitutes the default `"00:00:00"`, and — provided the element's *other*
timestamp field, when present, converts cleanly — the element yields a
candidate with `start_sec = 0` (resp. `end_sec = 0`). -/
theorem C9_default_timestamp (idx : Nat) (fields : List (String × Json)) :
    (Json.lookup fields "start" = none →
      (∀ v, Json.lookup fields "end" = some v → (hmsOfJson v).isSome = true) →
      ∃ cd, parseChapterRow idx (.obj fields) = some cd ∧ cd.start_sec = 0) ∧
    (Json.lookup fields "end" = none →
      (∀ v, Json.lookup fields "start" = some v → (hmsOfJson v).isSome = true) →
      ∃ cd, parseChapterRow idx (.obj fields) = some cd ∧ cd.end_sec = some 0) := by
  have h00 : hmsOfJson (Json.str "00:00:00") = some 0 := rfl
  constructor
  · intro hstart hother
    cases hend : Json.lookup fields "end" with
    | none =>
      have hrow : parseChapterRow idx (.obj fields) = some
          ⟨(Json.lookup fields "title").getD (.str ("Chapter " ++ toString (idx + 1))),
           0, some 0,
           Json.orElse ((Json.lookup fields "reason").getD .null)
             ((Json.lookup fields "summary").getD .null),
           none, "auto_llm", none,
           (Json.lookup fields "index").getD (.num ((idx : Int) + 1))⟩ := by
        simp [parseChapterRow, hstart, hend, h00]
      exact ⟨_, hrow, rfl⟩
    | some v =>
      obtain ⟨e, he⟩ := Option.isSome_iff_exists.mp (hother v hend)
      have hrow : parseChapterRow idx (.obj fields) = some
          ⟨(Json.lookup fields "title").getD (.str ("Chapter " ++ toString (idx + 1))),
           0, some e,
           Json.orElse ((Json.lookup fields "reason").getD .null)
             ((Json.lookup fields "summary").getD .null),
           none, "auto_llm", none,
           (Json.lookup fields "index").getD (.num ((idx : Int) + 1))⟩ := by
        simp [parseChapterRow, hstart, hend, h00, he]
      exact ⟨_, hrow, rfl⟩
  · intro hend hother
    cases hstart : Json.lookup fields "start" with
    | none =>
      have hrow : parseChapterRow idx (.obj fields) = some
          ⟨(Json.lookup fields "title").getD (.str ("Chapter " ++ toString (idx + 1))),
           0, some 0,
           Json.orElse ((Json.lookup fields "reason").getD .null)
             ((Json.lookup fields "summary").getD .null),
           none, "auto_llm", none,
           (Json.lookup fields "index").getD (.num ((idx : Int) + 1))⟩ := by
        simp [parseChapterRow, hstart, hend, h00]
      exact ⟨_, hrow, rfl⟩
    | some v =>
      obtain ⟨e, he⟩ := Option.isSome_iff_exists.mp (hother v hstart)
      have hrow : parseChapterRow idx (.obj fields) = some
          ⟨(Json.lookup fields "title").getD (.str ("Chapter " ++ toString (idx + 1))),
           e, some 0,
           Json.orElse ((Json.lookup fields "reason").getD .null)
             ((Json.lookup fields "summary").getD .null),
           none, "auto_llm", none,
           (Json.lookup fields "index").getD (.num ((idx : Int) + 1))⟩ := by
        simp [parseChapterRow, hstart, hend, h00, he]
      exact ⟨_, hrow, rfl⟩

/-- Witness for C9: an element carrying only a title is kept with both
timestamps defaulted to 0. -/
theorem C9_witness :
    (Json.lookup [("title", Json.str "only")] "start" = none ∧
      ∀ v, Json.lookup [("title", Json.str "only")] "end" = some v →
        (hmsOfJson v).isSome = true) ∧
    ∃ cd, parseChapterRow 0 (.obj [("title", Json.str "only")]) = some cd ∧
      cd.start_sec = 0 :=
  ⟨⟨rfl, fun v hv => by simp [Json.lookup] at hv⟩,
   (C9_default_timestamp 0 [("title", Json.str "only")]).1 rfl
     (fun v hv => by simp [Json.lookup] at hv)⟩

lemma json_lookup_ne_nil {fields : List (String × Json)} {k : String} {v : Json}
    (h : Json.lookup fields k = some v) : fields ≠ [] := by
  intro hf
  subst hf
  simp [Json.lookup] at h

lemma obj_truthy_of_lookup {fields : List (String × Json)} {k : String} {v : Json}
    (h : Json.lookup fields k = some v) : (Json.obj fields).truthy = true := by
  have : fields ≠ [] := json_lookup_ne_nil h
  simp [Json.truthy, List.isEmpty_iff, this]

lemma except_bind_ok {ε α β : Type} (a : α) (f : α → Except ε β) :
    (Except.ok a : Except ε α) >>= f = f a := rfl

lemma except_bind_error {ε α β : Type} (e : ε) (f : α → Except ε β) :
    (Except.error e : Except ε α) >>= f = Except.error e := rfl

lemma except_map_ok {ε α β : Type} (g : α → β) (a : α) :
    g <$> (Except.ok a : Except ε α) = Except.ok (g a) := rfl

lemma except_map_error {ε α β : Type} (g : α → β) (e : ε) :
    g <$> (Except.error e : Except ε α) = Except.error e := rfl

lemma except_pure {ε α : Type} (a : α) : (pure a : Except ε α) = Except.ok a := rfl

lemma parse_llm_falsy {data : Json} (h : data.truthy = false) :
    _parse_llm_response data = .ok [] := by
  unfold _parse_llm_response
  simp [h, except_pure]

lemma parse_llm_no_choices (fields : List (String × Json))
    (h : Json.lookup fields "choices" = none) :
    _parse_llm_response (.obj fields) = .ok [] := by
  by_cases ht : (Json.obj fields).truthy
  · unfold _parse_llm_response
    simp [ht, containsChoicesKey, h, except_bind_ok, except_pure]
  · exact parse_llm_falsy (by simpa using ht)

lemma parse_llm_falsy_choices (fields : List (String × Json)) (choices : Json)
    (hlk : Json.lookup fields "choices" = some choices)
    (ht : choices.truthy = false) :
    _parse_llm_response (.obj fields) = .ok [] := by
  unfold _parse_llm_response
  simp [obj_truthy_of_lookup hlk, containsChoicesKey, subscriptChoices, hlk, ht,
    except_bind_ok, except_pure]

lemma parse_llm_decode_fail (fields ffields mfields : List (String × Json))
    (rest : List Json) (s : String)
    (hlk : Json.lookup fields "choices" = some (.arr (.obj ffields :: rest)))
    (hmsg : Json.lookup ffields "message" = some (.obj mfields))
    (hcontent : (Json.lookup mfields "content").getD (.str "") = .str s)
    (hdec : json_loads s = none) :
    _parse_llm_response (.obj fields) = .ok [] := by
  have htc : (Json.arr (Json.obj ffields :: rest)).truthy = true := rfl
  unfold _parse_llm_response
  simp [obj_truthy_of_lookup hlk, containsChoicesKey, subscriptChoices, firstItem, hlk,
    hmsg, hcontent, hdec, htc, except_bind_ok, except_pure]

lemma parse_llm_happy (fields ffields mfields pfields : List (String × Json))
    (rest : List Json) (s : String) (xs : List Json)
    (hlk : Json.lookup fields "choices" = some (.arr (.obj ffields :: rest)))
    (hmsg : Json.lookup ffields "message" = some (.obj mfields))
    (hcontent : (Json.lookup mfields "content").getD (.str "") = .str s)
    (hdec : json_loads s = some (.obj pfields))
    (hch : (Json.lookup pfields "chapters").getD (.arr []) = .arr xs) :
    _parse_llm_response (.obj fields) =
      .ok (xs.enum.filterMap (fun p => parseChapterRow p.1 p.2)) := by
  have htc : (Json.arr (Json.obj ffields :: rest)).truthy = true := rfl
  unfold _parse_llm_response
  simp [obj_truthy_of_lookup hlk, containsChoicesKey, subscriptChoices, firstItem, pyIter,
    hlk, hmsg, hcontent, hdec, hch, htc, except_bind_ok, except_map_ok, except_pure]

/-- **C4** counterexample: the response `\x7b"choices": [\x7b\x7d]\x7d` — a non-empty
choices list whose first element has no `"message"` key — makes
`data["choices"][0]["message"]` raise `KeyError`, which escapes to the
caller; the Response Parser is *not* exception-free for every raw response
value. -/
theorem C4_counterexample :
    _parse_llm_response (.obj [("choices", .arr [.obj []])]) = .error .keyError := rfl

/-- Outside the contract shape the parser really does raise, and
`goodResponse` excludes exactly those responses: a content string decoding
to a float (Python `json.loads("5.5")`) reaches `parsed.get` and raises
`AttributeError`, and a non-iterable `chapters` value reaches `enumerate`
and raises `TypeError`. -/
lemma parse_llm_raises_outside_contract :
    goodResponse (.obj [("choices", .arr [.obj [("message", .obj [("content",
      .str "5.5")])]])]) = false ∧
    _parse_llm_response (.obj [("choices", .arr [.obj [("message", .obj [("content",
      .str "5.5")])]])]) = .error .attributeError ∧
    goodResponse (.obj [("choices", .arr [.obj [("message", .obj [("content",
      .str "\x7b\"chapters\": 5\x7d")])]])]) = false ∧
    _parse_llm_response (.obj [("choices", .arr [.obj [("message", .obj [("content",
      .str "\x7b\"chapters\": 5\x7d")])]])]) = .error .typeError :=
  ⟨rfl, rfl, rfl, rfl⟩

/-- **C4** (corrected): the Response Parser never raises *provided* the raw
response has the provider-contract shape (`goodResponse`): a JSON object
whose `choices` value, when present and truthy, is a non-empty array whose
first element is an object with a `message` object whose `content` (default
`""`) is a string that either fails to decode or decodes to a JSON object
whose `chapters` value (default `[]`) is an array.  Each clause of that
shape is necessary: outside it the code raises (`KeyError` on a missing
`message`, `AttributeError` when the content decodes to a non-object such as
a bare number or float, `TypeError` when `chapters` is a non-iterable such
as `5`, ...).  Under the shape: a falsy response, a missing `choices` key,
or a falsy `choices` value yields the empty sequence; content that is not
valid JSON yields the empty sequence; and each element of the `chapters`
array is converted independently, a per-element conversion error skipping
only that element (the result is exactly the element-wise partial
conversion). -/
theorem C4_parse_error_handling (data : Json) :
    (goodResponse data = true → ∃ l, _parse_llm_response data = .ok l) ∧
    (data.truthy = false → _parse_llm_response data = .ok []) ∧
    (∀ fields, data = .obj fields → Json.lookup fields "choices" = none →
      _parse_llm_response data = .ok []) ∧
    (∀ fields choices, data = .obj fields →
      Json.lookup fields "choices" = some choices → choices.truthy = false →
      _parse_llm_response data = .ok []) ∧
    (∀ fields ffields mfields rest s, data = .obj fields →
      Json.lookup fields "choices" = some (.arr (.obj ffields :: rest)) →
      Json.lookup ffields "message" = some (.obj mfields) →
      (Json.lookup mfields "content").getD (.str "") = .str s →
      json_loads s = none → _parse_llm_response data = .ok []) ∧
    (∀ fields ffields mfields pfields rest s xs, data = .obj fields →
      Json.lookup fields "choices" = some (.arr (.obj ffields :: rest)) →
      Json.lookup ffields "message" = some (.obj mfields) →
      (Json.lookup mfields "content").getD (.str "") = .str s →
      json_loads s = some (.obj pfields) →
      (Json.lookup pfields "chapters").getD (.arr []) = .arr xs →
      _parse_llm_response data =
        .ok (xs.enum.filterMap (fun p => parseChapterRow p.1 p.2))) := by
  refine ⟨?_, ?_, ?_, ?_, ?_, ?_⟩
  · intro h
    cases data with
    | obj fields =>
      rw [goodResponse] at h
      cases hlk : Json.lookup fields "choices" with
      | none => exact ⟨[], parse_llm_no_choices fields hlk⟩
      | some choices =>
        rw [hlk] at h
        dsimp only at h
        by_cases ht : choices.truthy
        · rw [ht] at h
          simp only [Bool.not_true, Bool.false_or] at h
          cases choices with
          | arr elems =>
            cases elems with
            | nil => simp [Json.truthy] at ht
            | cons first rest =>
              cases first with
              | obj ffields =>
                simp at h
                cases hmsg : Json.lookup ffields "message" with
                | none => rw [hmsg] at h; simp at h
                | some msg =>
                  rw [hmsg] at h
                  cases msg with
                  | obj mfields =>
                    simp at h
                    cases hcontent : (Json.lookup mfields "content").getD (.str "") with
                    | str s =>
                      rw [hcontent] at h
                      simp at h
                      cases hdec : json_loads s with
                      | none =>
                        exact ⟨[], parse_llm_decode_fail fields ffields mfields rest s
                          hlk hmsg hcontent hdec⟩
                      | some parsed =>
                        rw [hdec] at h
                        cases parsed with
                        | obj pfields =>
                          simp at h
                          cases hch : (Json.lookup pfields "chapters").getD (.arr []) with
                          | arr xs =>
                            exact ⟨_, parse_llm_happy fields ffields mfields pfields rest s
                              xs hlk hmsg hcontent hdec hch⟩
                          | null => rw [hch] at h; simp at h
                          | bool b => rw [hch] at h; simp at h
                          | num n => rw [hch] at h; simp at h
                          | float v => rw [hch] at h; simp at h
                          | str s2 => rw [hch] at h; simp at h
                          | obj o2 => rw [hch] at h; simp at h
                        | null => simp at h
                        | bool b => simp at h
                        | num n => simp at h
                        | float v => simp at h
                        | str s2 => simp at h
                        | arr a2 => simp at h
                    | null => rw [hcontent] at h; simp at h
                    | bool b => rw [hcontent] at h; simp at h
                    | num n => rw [hcontent] at h; simp at h
                    | float v => rw [hcontent] at h; simp at h
                    | arr a2 => rw [hcontent] at h; simp at h
                    | obj o2 => rw [hcontent] at h; simp at h
                  | null => simp at h
                  | bool b => simp at h
                  | num n => simp at h
                  | float v => simp at h
                  | str s2 => simp at h
                  | arr a2 => simp at h
              | null => simp at h
              | bool b => simp at h
              | num n => simp at h
              | float v => simp at h
              | str s => simp at h
              | arr a2 => simp at h
          | null => simp [Json.truthy] at ht
          | bool b => simp at h
          | num n => simp at h
          | float v => simp at h
          | str s2 => simp at h
          | obj o2 => simp at h
        · exact ⟨[], parse_llm_falsy_choices fields choices hlk (by simpa using ht)⟩
    | null => simp [goodResponse] at h
    | bool b => simp [goodResponse] at h
    | num n => simp [goodResponse] at h
    | float v => simp [goodResponse] at h
    | str s => simp [goodResponse] at h
    | arr a => simp [goodResponse] at h
  · exact fun h => parse_llm_falsy h
  · rintro fields rfl h
    exact parse_llm_no_choices fields h
  · rintro fields choices rfl hlk ht
    exact parse_llm_falsy_choices fields choices hlk ht
  · rintro fields ffields mfields rest s rfl hlk hmsg hcontent hdec
    exact parse_llm_decode_fail fields ffields mfields rest s hlk hmsg hcontent hdec
  · rintro fields ffields mfields pfields rest s xs rfl hlk hmsg hcontent hdec hch
    exact parse_llm_happy fields ffields mfields pfields rest s xs hlk hmsg hcontent hdec hch

/-- Witness for C4 at a concrete well-shaped response whose chapters array
holds one convertible and one malformed element: no exception, and exactly
the convertible element is kept. -/
theorem C4_witness :
    goodResponse (.obj [("choices", .arr [.obj [("message", .obj [("content",
      .str "\x7b\"chapters\": [\x7b\"start\": \"00:00:05\", \"end\": \"00:00:15\"\x7d, \x7b\"start\": \"bad\"\x7d]\x7d")])]])]) = true ∧
    ∃ l, _parse_llm_response (.obj [("choices", .arr [.obj [("message", .obj [("content",
      .str "\x7b\"chapters\": [\x7b\"start\": \"00:00:05\", \"end\": \"00:00:15\"\x7d, \x7b\"start\": \"bad\"\x7d]\x7d")])]])]) = .ok l :=
  ⟨rfl,
   (C4_parse_error_handling (.obj [("choices", .arr [.obj [("message", .obj [("content",
      .str "\x7b\"chapters\": [\x7b\"start\": \"00:00:05\", \"end\": \"00:00:15\"\x7d, \x7b\"start\": \"bad\"\x7d]\x7d")])]])])).1 rfl⟩

lemma fallback_cover (step duration : Int) (hstep : 1 ≤ step) :
    ∀ n : Nat, 1 ≤ n → ∀ t : Int, 0 ≤ t → t ≤ min ((n : Int) * step) duration →
      ∃ i : Nat, i < n ∧ (i : Int) * step ≤ t ∧ t ≤ min (((i : Int) + 1) * step) duration := by
  intro n
  induction n with
  | zero => omega
  | succ k ih =>
    intro _ t ht hle
    by_cases hk : 1 ≤ k
    · by_cases h2 : t ≤ min ((k : Int) * step) duration
      · obtain ⟨i, hi, h3, h4⟩ := ih hk t ht h2
        exact ⟨i, Nat.lt_succ_of_lt hi, h3, h4⟩
      · refine ⟨k, Nat.lt_succ_self k, ?_, ?_⟩
        · have hdur : t ≤ duration := le_trans hle (min_le_right _ _)
          have : ¬ t ≤ (k : Int) * step := by
            intro hc
            exact h2 (le_min hc hdur)
          omega
        · have : ((k : Int) + 1) * step = ((k + 1 : Nat) : Int) * step := by push_cast; ring
          rw [this]
          exact hle
    · have hk0 : k = 0 := by omega
      subst hk0
      refine ⟨0, Nat.zero_lt_one, by simpa using ht, ?_⟩
      simpa using hle

/-- **C3** counterexample: a single segment `(0, 3)` (duration 3) with
`max_chapters = 2` gives `step = max(3 // 2, 1) = 1` and chapters spanning
`[0,1]` and `[1,2]` — the spans do *not* cover `[0, duration] = [0, 3]`
(the instant 3 lies in no chapter). -/
theorem C3_counterexample :
    fallbackDuration [⟨0, some 3, "x"⟩] = 3 ∧
    (_fallback_stub [⟨0, some 3, "x"⟩] 2).map (fun c => (c.start_sec, c.end_sec)) =
      [(0, some 1), (1, some 2)] ∧
    ¬ ∃ c ∈ _fallback_stub [⟨0, some 3, "x"⟩] 2,
        c.start_sec ≤ 3 ∧ 3 ≤ c.end_sec.getD c.start_sec := by
  refine ⟨rfl, rfl, ?_⟩
  decide

/-- **C3** (corrected): for every non-empty segment list and `max_chapters ≥
1`, the Fallback Generator returns exactly `min(max_chapters, 10)` chapters;
chapter `i` (0-based) spans `[i*step, min((i+1)*step, duration)]` for
`step = max(duration // chapter_count, 1)`, with `confidence = 0.5`
(modelled `(5,10)`), `source = "auto_stub"` and `order = i+1`; consecutive
spans never overlap (`end_i ≤ start_(i+1)`); and the spans together cover
`[0, min(chapter_count*step, duration)]` — which equals `[0, duration]`
only when `duration ≤ chapter_count*step`, not in general.  `duration` is
the value the code computes: the last-by-start segment's end-or-start (a
`0` or null `end_sec` falling back to the start), at least that segment's
start. -/
theorem C3_fallback_stub (transcript_lines : List TranscriptLine) (max_chapters : Int)
    (hne : transcript_lines ≠ []) (hmc : 1 ≤ max_chapters) :
    let duration := fallbackDuration transcript_lines
    let chapter_count := min max_chapters 10
    let step := max (duration.fdiv chapter_count) 1
    (_fallback_stub transcript_lines max_chapters).length = chapter_count.toNat ∧
    (∀ i : Nat, ∀ c, (_fallback_stub transcript_lines max_chapters)[i]? = some c →
      c.start_sec = (i : Int) * step ∧
      c.end_sec = some (min (((i : Int) + 1) * step) duration) ∧
      c.confidence = some (5, 10) ∧
      c.source = "auto_stub" ∧
      c.order = .num ((i : Int) + 1)) ∧
    (∀ i : Nat, ∀ c c', (_fallback_stub transcript_lines max_chapters)[i]? = some c →
      (_fallback_stub transcript_lines max_chapters)[i + 1]? = some c' →
      c.end_sec.getD c.start_sec ≤ c'.start_sec) ∧
    (∀ t : Int, 0 ≤ t → t ≤ min (chapter_count * step) duration →
      ∃ c ∈ _fallback_stub transcript_lines max_chapters,
        c.start_sec ≤ t ∧ t ≤ c.end_sec.getD c.start_sec) := by
  intro duration chapter_count step
  have hcc : min (pyOrInt max_chapters 10) 10 = chapter_count := by
    have : pyOrInt max_chapters 10 = max_chapters := by
      unfold pyOrInt
      have : max_chapters ≠ 0 := by omega
      simp [this]
    rw [this]
  have hccpos : 1 ≤ chapter_count := by
    simp only [chapter_count]
    omega
  have hstep : 1 ≤ step := le_max_right _ _
  have hE : transcript_lines.isEmpty = false := by simpa [List.isEmpty_iff] using hne
  have hfb : _fallback_stub transcript_lines max_chapters =
      (List.range chapter_count.toNat).map (fallbackChapter step duration) := by
    unfold _fallback_stub
    rw [hE]
    simp only [Bool.false_eq_true, if_false, hcc]
  refine ⟨?_, ?_, ?_, ?_⟩
  · rw [hfb]; simp
  · intro i c hc
    rw [hfb] at hc
    rw [List.getElem?_map] at hc
    by_cases hi : i < chapter_count.toNat
    · rw [List.getElem?_range hi] at hc
      obtain rfl : fallbackChapter step duration i = c := by
        injection hc
      exact ⟨rfl, rfl, rfl, rfl, rfl⟩
    · rw [List.getElem?_eq_none (by simpa using hi)] at hc
      cases hc
  · intro i c c' hc hc'
    rw [hfb, List.getElem?_map] at hc hc'
    by_cases hi : i + 1 < chapter_count.toNat
    · rw [List.getElem?_range hi] at hc'
      rw [List.getElem?_range (by omega)] at hc
      obtain rfl : fallbackChapter step duration i = c := by injection hc
      obtain rfl : fallbackChapter step duration (i + 1) = c' := by injection hc'
      show min (((i : Int) + 1) * step) duration ≤ ((i + 1 : Nat) : Int) * step
      push_cast
      exact min_le_left _ _
    · rw [List.getElem?_eq_none (by simpa using hi)] at hc'
      cases hc'
  · intro t ht hle
    have hn1 : 1 ≤ chapter_count.toNat := by omega
    have hcast : ((chapter_count.toNat : Int)) = chapter_count := Int.toNat_of_nonneg (by omega)
    obtain ⟨i, hi, h3, h4⟩ := fallback_cover step duration hstep chapter_count.toNat hn1 t ht
      (by rw [hcast]; exact hle)
    refine ⟨fallbackChapter step duration i, ?_, h3, ?_⟩
    · rw [hfb]
      exact List.mem_map.mpr ⟨i, List.mem_range.mpr hi, rfl⟩
    · simpa [fallbackChapter] using h4

/-- Witness for C3: two segments spanning 0–20, `max_chapters = 10`
(the spec's Scenario A). -/
theorem C3_witness :
    (([⟨0, some 10, "hi"⟩, ⟨10, some 20, "bye"⟩] : List TranscriptLine) ≠ [] ∧
      (1 : Int) ≤ 10) ∧
    ((_fallback_stub [⟨0, some 10, "hi"⟩, ⟨10, some 20, "bye"⟩] 10).length =
      (min (10 : Int) 10).toNat ∧
    (∀ i : Nat, ∀ c, (_fallback_stub [⟨0, some 10, "hi"⟩, ⟨10, some 20, "bye"⟩] 10)[i]? = some c →
      c.start_sec = (i : Int) *
        (max ((fallbackDuration [⟨0, some 10, "hi"⟩, ⟨10, some 20, "bye"⟩]).fdiv
          (min (10 : Int) 10)) 1) ∧
      c.end_sec = some (min (((i : Int) + 1) *
        (max ((fallbackDuration [⟨0, some 10, "hi"⟩, ⟨10, some 20, "bye"⟩]).fdiv
          (min (10 : Int) 10)) 1))
        (fallbackDuration [⟨0, some 10, "hi"⟩, ⟨10, some 20, "bye"⟩])) ∧
      c.confidence = some (5, 10) ∧
      c.source = "auto_stub" ∧
      c.order = .num ((i : Int) + 1)) ∧
    (∀ i : Nat, ∀ c c', (_fallback_stub [⟨0, some 10, "hi"⟩, ⟨10, some 20, "bye"⟩] 10)[i]? = some c →
      (_fallback_stub [⟨0, some 10, "hi"⟩, ⟨10, some 20, "bye"⟩] 10)[i + 1]? = some c' →
      c.end_sec.getD c.start_sec ≤ c'.start_sec) ∧
    (∀ t : Int, 0 ≤ t →
      t ≤ min ((min (10 : Int) 10) *
        (max ((fallbackDuration [⟨0, some 10, "hi"⟩, ⟨10, some 20, "bye"⟩]).fdiv
          (min (10 : Int) 10)) 1))
        (fallbackDuration [⟨0, some 10, "hi"⟩, ⟨10, some 20, "bye"⟩]) →
      ∃ c ∈ _fallback_stub [⟨0, some 10, "hi"⟩, ⟨10, some 20, "bye"⟩] 10,
        c.start_sec ≤ t ∧ t ≤ c.end_sec.getD c.start_sec)) :=
  ⟨⟨by decide, by decide⟩,
   C3_fallback_stub [⟨0, some 10, "hi"⟩, ⟨10, some 20, "bye"⟩] 10 (by decide) (by decide)⟩

lemma transcriptLineStep_eq (acc : List (Int × Option Int × String)) (raw : String) :
    transcriptLineStep acc raw = acc ++ (parseLineOpt raw).toList := by
  unfold transcriptLineStep parseLineOpt
  by_cases hskip : (pyStrip raw).data = [] ||
      pyStartsWith (pyStrip raw).data "#".data ||
      pyStartsWith (pyStrip raw).data "生成时间".data
  · simp [hskip]
  · simp only [hskip, Bool.false_eq_true, if_false]
    cases hmt : matchTranscript (pyStrip raw) with
    | none => simp
    | some g =>
      obtain ⟨g1, g2, g3, g4, g5, g6, g7⟩ := g
      simp

lemma foldl_transcriptLineStep (lines : List String)
    (acc : List (Int × Option Int × String)) :
    lines.foldl transcriptLineStep acc = acc ++ lines.filterMap parseLineOpt := by
  induction lines generalizing acc with
  | nil => simp
  | cons l ls ih =>
    rw [List.foldl_cons, ih, transcriptLineStep_eq, List.filterMap_cons]
    cases h : parseLineOpt l with
    | none => simp
    | some t => simp

lemma dropWhile_eq_self_of_head {p : Char → Bool} {l : List Char}
    (h : ∀ ch, l.head? = some ch → p ch = false) : l.dropWhile p = l := by
  cases l with
  | nil => rfl
  | cons c rest => simp [List.dropWhile, h c rfl]

lemma dropWhile_fixed_head {p : Char → Bool} {l : List Char}
    (h : l.dropWhile p = l) : ∀ ch, l.head? = some ch → p ch = false := by
  intro ch hh
  cases l with
  | nil => cases hh
  | cons c rest =>
    rw [List.head?_cons] at hh
    obtain rfl : c = ch := Option.some.inj hh
    by_cases hp : p c
    · rw [List.dropWhile_cons, if_pos hp] at h
      have hcong := congrArg List.length h
      have hlen : (rest.dropWhile p).length ≤ rest.length :=
        (List.dropWhile_suffix p).sublist.length_le
      simp at hcong
      omega
    · simpa using hp

lemma strip_left_fixed {l : List Char} (h : pyStripChars l = l) :
    l.dropWhile isPyWs = l := by
  have hsuffix := (List.dropWhile_suffix (l := l) isPyWs)
  refine hsuffix.eq_of_length ?_
  have h1 : (l.dropWhile isPyWs).length ≤ l.length := hsuffix.sublist.length_le
  have h2 : (pyStripChars l).length ≤ (l.dropWhile isPyWs).length := by
    unfold pyStripChars
    simp only [List.length_reverse]
    exact le_trans (List.dropWhile_suffix isPyWs).sublist.length_le (by simp)
  rw [h] at h2
  omega

lemma strip_right_fixed {l : List Char} (h : pyStripChars l = l) :
    l.reverse.dropWhile isPyWs = l.reverse := by
  have h1 : l.dropWhile isPyWs = l := strip_left_fixed h
  unfold pyStripChars at h
  rw [h1] at h
  have := congrArg List.reverse h
  rwa [List.reverse_reverse] at this

lemma stripped_head_not_ws {l : List Char} (h : pyStripChars l = l) {ch : Char}
    (hh : l.head? = some ch) : isPyWs ch = false :=
  dropWhile_fixed_head (strip_left_fixed h) ch hh

lemma stripped_last_not_ws {l : List Char} (h : pyStripChars l = l) {ch : Char}
    (hh : l.getLast? = some ch) : isPyWs ch = false :=
  dropWhile_fixed_head (strip_right_fixed h) ch (by rwa [List.head?_reverse])

lemma strip_eq_self {l : List Char}
    (hh : ∀ ch, l.head? = some ch → isPyWs ch = false)
    (hl : ∀ ch, l.getLast? = some ch → isPyWs ch = false) : pyStripChars l = l := by
  unfold pyStripChars
  rw [dropWhile_eq_self_of_head hh,
    dropWhile_eq_self_of_head (fun ch hch => hl ch (by rwa [List.head?_reverse] at hch)),
    List.reverse_reverse]

lemma digit_bounds {c : Char} (h : c.isDigit = true) : 48 ≤ c.toNat ∧ c.toNat ≤ 57 := by
  simp [Char.isDigit] at h
  exact ⟨h.1, h.2⟩

lemma digit_not_ws {c : Char} (h : c.isDigit = true) : isPyWs c = false := by
  by_contra hws
  simp only [isPyWs, Bool.or_eq_true, decide_eq_true_eq, Bool.not_eq_false] at hws
  rcases hws with ((((hc | hc) | hc) | hc) | hc) | hc <;>
    (subst hc; simp [Char.isDigit] at h)

lemma digit_ne_dash {c : Char} (h : c.isDigit = true) : c ≠ '-' := by
  intro hc; subst hc; simp [Char.isDigit] at h

lemma digit_ne_plus {c : Char} (h : c.isDigit = true) : c ≠ '+' := by
  intro hc; subst hc; simp [Char.isDigit] at h

lemma pyParseInt_two_digits {x y : Char} (hx : x.isDigit = true) (hy : y.isDigit = true) :
    pyParseInt ⟨[x, y]⟩ = some (((x.toNat : Int) - 48) * 10 + ((y.toNat : Int) - 48)) := by
  unfold pyParseInt
  have hdata : (⟨[x, y]⟩ : String).data = [x, y] := rfl
  rw [hdata]
  have hstrip : pyStripChars [x, y] = [x, y] :=
    strip_eq_self
      (fun ch hch => by
        rw [List.head?_cons] at hch
        obtain rfl : x = ch := Option.some.inj hch
        exact digit_not_ws hx)
      (fun ch hch => by
        have : [x, y].getLast? = some y := rfl
        rw [this] at hch
        obtain rfl : y = ch := Option.some.inj hch
        exact digit_not_ws hy)
  rw [hstrip]
  dsimp only
  have hhead : ([x, y] : List Char).head? = some x := rfl
  rw [hhead]
  have hneg : (decide (some x = some '-') : Bool) = false := by
    simp [digit_ne_dash hx]
  have hplus : (decide (some x = some '+') : Bool) = false := by
    simp [digit_ne_plus hx]
  have hall : ([x, y].all Char.isDigit) = true := by simp [hx, hy]
  simp only [hneg, hplus, hall, Bool.or_self, Bool.false_eq_true, if_false,
    Bool.not_true, Bool.or_false, List.foldl_cons, List.foldl_nil]
  have hb1 := digit_bounds hx
  have hb2 := digit_bounds hy
  simp only [List.cons_ne_nil, decide_False, Bool.false_or, Bool.not_true,
    Bool.false_eq_true, if_false]
  congr 1
  omega

lemma matchTranscript_built_line
    (a b c d e f g h i j k m : Char) (txt : String)
    (ha : a.isDigit = true) (hb : b.isDigit = true) (hc : c.isDigit = true)
    (hd : d.isDigit = true) (he : e.isDigit = true) (hf : f.isDigit = true)
    (hg : g.isDigit = true) (hh : h.isDigit = true) (hi : i.isDigit = true)
    (hj : j.isDigit = true) (hk : k.isDigit = true) (hm : m.isDigit = true)
    (hstxt : pyStripChars txt.data = txt.data)
    (hnl : txt.data.contains '\n' = false) :
    matchTranscriptChars ('[' :: a :: b :: ':' :: c :: d :: ':' :: e :: f :: ' ' :: '-' ::
        '-' :: '>' :: ' ' :: g :: h :: ':' :: i :: j :: ':' :: k :: m :: ']' :: ' ' ::
        txt.data) =
      some (⟨[a, b]⟩, ⟨[c, d]⟩, ⟨[e, f]⟩, ⟨[g, h]⟩, ⟨[i, j]⟩, ⟨[k, m]⟩, txt) := by
  have hdrop3 : (' ' :: txt.data).dropWhile isPyWs = txt.data := by
    rw [List.dropWhile_cons, if_pos (by decide)]
    exact strip_left_fixed hstxt
  have hlast : (txt.data.getLast? = some '\n') = False := by
    simp only [eq_iff_iff, iff_false]
    intro hl
    have := stripped_last_not_ws hstxt hl
    simp [isPyWs] at this
  simp only [matchTranscriptChars, ha, hb, hc, hd, he, hf, hg, hh, hi, hj, hk, hm,
    Bool.and_self, if_true, List.dropWhile_cons, digit_not_ws hg,
    show isPyWs ' ' = true by decide, show isPyWs '-' = false by decide,
    Bool.false_eq_true, if_false, hdrop3, hlast, hnl]

/-- **C5** (confirmed): `parse_transcript_txt` emits exactly the per-line
conversions, in input line order (it equals `filterMap` of the per-line
function over the split lines); a line that is blank after stripping, starts
with `#`, starts with the generated-at marker `生成时间`, or fails the
pattern is skipped without error; an input whose lines all fail yields the
empty sequence; and every well-formed
`[HH:MM:SS --> HH:MM:SS] <text>` line (two-digit components, here built from
arbitrary digit characters around a stripped text) converts to
`(H*3600 + M*60 + S)` start and end seconds with the text trimmed. -/
theorem C5_parse_transcript (content : String) :
    parse_transcript_txt content = (pySplitLines content).filterMap parseLineOpt ∧
    ((∀ l ∈ pySplitLines content, parseLineOpt l = none) →
      parse_transcript_txt content = []) ∧
    (∀ raw : String,
      ((pyStrip raw).data = [] ∨
       pyStartsWith (pyStrip raw).data "#".data = true ∨
       pyStartsWith (pyStrip raw).data "生成时间".data = true ∨
       matchTranscript (pyStrip raw) = none) →
      parseLineOpt raw = none) ∧
    (∀ (a b c d e f g h i j k m : Char) (txt : String),
      a.isDigit = true → b.isDigit = true → c.isDigit = true → d.isDigit = true →
      e.isDigit = true → f.isDigit = true → g.isDigit = true → h.isDigit = true →
      i.isDigit = true → j.isDigit = true → k.isDigit = true → m.isDigit = true →
      pyStripChars txt.data = txt.data → txt.data ≠ [] →
      txt.data.contains '\n' = false →
      parseLineOpt ⟨'[' :: a :: b :: ':' :: c :: d :: ':' :: e :: f :: ' ' :: '-' ::
          '-' :: '>' :: ' ' :: g :: h :: ':' :: i :: j :: ':' :: k :: m :: ']' :: ' ' ::
          txt.data⟩ =
        some ((((a.toNat : Int) - 48) * 10 + ((b.toNat : Int) - 48)) * 3600 +
              (((c.toNat : Int) - 48) * 10 + ((d.toNat : Int) - 48)) * 60 +
              (((e.toNat : Int) - 48) * 10 + ((f.toNat : Int) - 48)),
          some ((((g.toNat : Int) - 48) * 10 + ((h.toNat : Int) - 48)) * 3600 +
              (((i.toNat : Int) - 48) * 10 + ((j.toNat : Int) - 48)) * 60 +
              (((k.toNat : Int) - 48) * 10 + ((m.toNat : Int) - 48))),
          txt)) := by
  refine ⟨?_, ?_, ?_, ?_⟩
  · unfold parse_transcript_txt
    rw [foldl_transcriptLineStep]
    simp
  · intro hall
    unfold parse_transcript_txt
    rw [foldl_transcriptLineStep]
    simp only [List.nil_append]
    exact List.filterMap_eq_nil.mpr hall
  · intro raw hdisj
    unfold parseLineOpt
    rcases hdisj with hc | hc | hc | hc
    · simp [hc]
    · simp [hc]
    · simp [hc]
    · by_cases hskip : (pyStrip raw).data = [] ||
          pyStartsWith (pyStrip raw).data "#".data ||
          pyStartsWith (pyStrip raw).data "生成时间".data
      · simp [hskip]
      · simp only [hskip, Bool.false_eq_true, if_false, hc]
  · intro a b c d e f g h i j k m txt ha hb hc hd he hf hg hh hi hj hk hm hstxt hne hnl
    have hLdata : (⟨'[' :: a :: b :: ':' :: c :: d :: ':' :: e :: f :: ' ' :: '-' ::
        '-' :: '>' :: ' ' :: g :: h :: ':' :: i :: j :: ':' :: k :: m :: ']' :: ' ' ::
        txt.data⟩ : String).data =
        '[' :: a :: b :: ':' :: c :: d :: ':' :: e :: f :: ' ' :: '-' ::
        '-' :: '>' :: ' ' :: g :: h :: ':' :: i :: j :: ':' :: k :: m :: ']' :: ' ' ::
        txt.data := rfl
    have happ : '[' :: a :: b :: ':' :: c :: d :: ':' :: e :: f :: ' ' :: '-' ::
        '-' :: '>' :: ' ' :: g :: h :: ':' :: i :: j :: ':' :: k :: m :: ']' :: ' ' ::
        txt.data =
        (['[', a, b, ':', c, d, ':', e, f, ' ', '-', '-', '>', ' ', g, h, ':', i, j,
          ':', k, m, ']', ' '] : List Char) ++ txt.data := rfl
    have hstripL : pyStripChars ('[' :: a :: b :: ':' :: c :: d :: ':' :: e :: f :: ' ' ::
        '-' :: '-' :: '>' :: ' ' :: g :: h :: ':' :: i :: j :: ':' :: k :: m :: ']' ::
        ' ' :: txt.data) =
        '[' :: a :: b :: ':' :: c :: d :: ':' :: e :: f :: ' ' :: '-' :: '-' :: '>' ::
        ' ' :: g :: h :: ':' :: i :: j :: ':' :: k :: m :: ']' :: ' ' :: txt.data := by
      refine strip_eq_self ?_ ?_
      · intro ch hch
        rw [List.head?_cons] at hch
        obtain rfl : '[' = ch := Option.some.inj hch
        decide
      · intro ch hch
        rw [happ, List.getLast?_append_of_ne_nil _ hne] at hch
        exact stripped_last_not_ws hstxt hch
    have hps : pyStrip ⟨'[' :: a :: b :: ':' :: c :: d :: ':' :: e :: f :: ' ' :: '-' ::
        '-' :: '>' :: ' ' :: g :: h :: ':' :: i :: j :: ':' :: k :: m :: ']' :: ' ' ::
        txt.data⟩ =
        ⟨'[' :: a :: b :: ':' :: c :: d :: ':' :: e :: f :: ' ' :: '-' :: '-' :: '>' ::
        ' ' :: g :: h :: ':' :: i :: j :: ':' :: k :: m :: ']' :: ' ' :: txt.data⟩ := by
      unfold pyStrip
      rw [hLdata, hstripL]
    unfold parseLineOpt
    rw [hps]
    have hmt : matchTranscript ⟨'[' :: a :: b :: ':' :: c :: d :: ':' :: e :: f :: ' ' ::
        '-' :: '-' :: '>' :: ' ' :: g :: h :: ':' :: i :: j :: ':' :: k :: m :: ']' ::
        ' ' :: txt.data⟩ =
        some (⟨[a, b]⟩, ⟨[c, d]⟩, ⟨[e, f]⟩, ⟨[g, h]⟩, ⟨[i, j]⟩, ⟨[k, m]⟩, txt) := by
      unfold matchTranscript
      rw [hLdata]
      exact matchTranscript_built_line a b c d e f g h i j k m txt
        ha hb hc hd he hf hg hh hi hj hk hm hstxt hnl
    have h1 : ((⟨'[' :: a :: b :: ':' :: c :: d :: ':' :: e :: f :: ' ' :: '-' ::
        '-' :: '>' :: ' ' :: g :: h :: ':' :: i :: j :: ':' :: k :: m :: ']' :: ' ' ::
        txt.data⟩ : String).data = []) = False := by
      rw [hLdata]
      simp
    have h2 : pyStartsWith (⟨'[' :: a :: b :: ':' :: c :: d :: ':' :: e :: f :: ' ' ::
        '-' :: '-' :: '>' :: ' ' :: g :: h :: ':' :: i :: j :: ':' :: k :: m :: ']' ::
        ' ' :: txt.data⟩ : String).data "#".data = false := by
      rw [hLdata]
      simp [pyStartsWith, List.isPrefixOf]
    have h3 : pyStartsWith (⟨'[' :: a :: b :: ':' :: c :: d :: ':' :: e :: f :: ' ' ::
        '-' :: '-' :: '>' :: ' ' :: g :: h :: ':' :: i :: j :: ':' :: k :: m :: ']' ::
        ' ' :: txt.data⟩ : String).data "生成时间".data = false := by
      rw [hLdata]
      simp [pyStartsWith, List.isPrefixOf]
    simp only [h1, h2, h3, decide_False, Bool.or_false, Bool.false_or,
      Bool.false_eq_true, if_false, hmt]
    have hpstxt : pyStrip txt = txt := by
      unfold pyStrip
      rw [hstxt]
    rw [hpstxt]
    unfold hms_to_seconds
    rw [pyParseInt_two_digits ha hb, pyParseInt_two_digits hc hd,
      pyParseInt_two_digits he hf, pyParseInt_two_digits hg hh,
      pyParseInt_two_digits hi hj, pyParseInt_two_digits hk hm]
    rfl

/-- Witness for C5: a concrete transcript containing a comment, a marker
line, a blank line, two well-formed lines (one with extra whitespace) and a
junk line. -/
theorem C5_witness :
    parse_transcript_txt
        "# c\n生成时间 2024\n[00:00:00 --> 00:00:10] hi\n\n  [00:00:10-->00:00:20]  bye \nnope" =
      (pySplitLines
        "# c\n生成时间 2024\n[00:00:00 --> 00:00:10] hi\n\n  [00:00:10-->00:00:20]  bye \nnope").filterMap
        parseLineOpt ∧
    parse_transcript_txt
        "# c\n生成时间 2024\n[00:00:00 --> 00:00:10] hi\n\n  [00:00:10-->00:00:20]  bye \nnope" =
      [(0, some 10, "hi"), (10, some 20, "bye")] ∧
    parseLineOpt "垃圾 line" = none ∧
    parseLineOpt ⟨'[' :: '0' :: '1' :: ':' :: '0' :: '2' :: ':' :: '0' :: '3' :: ' ' ::
        '-' :: '-' :: '>' :: ' ' :: '0' :: '1' :: ':' :: '0' :: '2' :: ':' :: '0' :: '4' ::
        ']' :: ' ' :: ("ok" : String).data⟩ =
      some (3723, some 3724, "ok") :=
  ⟨(C5_parse_transcript
      "# c\n生成时间 2024\n[00:00:00 --> 00:00:10] hi\n\n  [00:00:10-->00:00:20]  bye \nnope").1,
   rfl,
   (C5_parse_transcript "").2.2.1 "垃圾 line" (Or.inr (Or.inr (Or.inr rfl))),
   by
    have := (C5_parse_transcript "").2.2.2 '0' '1' '0' '2' '0' '3' '0' '1' '0' '2' '0' '4'
      "ok" rfl rfl rfl rfl rfl rfl rfl rfl rfl rfl rfl rfl rfl (by decide) rfl
    simpa using this⟩

lemma tripLt_irrefl (x : ℕ × ℤ × String) : tripLt x x = false := by
  obtain ⟨x1, x2, x3⟩ := x
  simp [tripLt]

lemma tripLt_trans {x y z : ℕ × ℤ × String} (h1 : tripLt x y = true)
    (h2 : tripLt y z = true) : tripLt x z = true := by
  obtain ⟨x1, x2, x3⟩ := x
  obtain ⟨y1, y2, y3⟩ := y
  obtain ⟨z1, z2, z3⟩ := z
  simp only [tripLt, Bool.or_eq_true, Bool.and_eq_true, decide_eq_true_eq] at h1 h2 ⊢
  rcases h1 with h1 | ⟨e1, h1⟩ <;> rcases h2 with h2 | ⟨e2, h2⟩
  · left; omega
  · left; omega
  · left; omega
  · right
    refine ⟨by omega, ?_⟩
    rcases h1 with h1 | ⟨f1, h1⟩ <;> rcases h2 with h2 | ⟨f2, h2⟩
    · left; omega
    · left; omega
    · left; omega
    · right; exact ⟨by omega, lt_trans h1 h2⟩

lemma tripLt_connex {x y : ℕ × ℤ × String} (h1 : tripLt x y = false)
    (h2 : tripLt y x = false) : x = y := by
  obtain ⟨x1, x2, x3⟩ := x
  obtain ⟨y1, y2, y3⟩ := y
  have e1 : x1 = y1 := by
    rcases lt_trichotomy x1 y1 with h | h | h
    · have hT : tripLt (x1, x2, x3) (y1, y2, y3) = true := by simp [tripLt, h]
      rw [h1] at hT; cases hT
    · exact h
    · have hT : tripLt (y1, y2, y3) (x1, x2, x3) = true := by simp [tripLt, h]
      rw [h2] at hT; cases hT
  subst e1
  have e2 : x2 = y2 := by
    rcases lt_trichotomy x2 y2 with h | h | h
    · have hT : tripLt (x1, x2, x3) (x1, y2, y3) = true := by simp [tripLt, h]
      rw [h1] at hT; cases hT
    · exact h
    · have hT : tripLt (x1, y2, y3) (x1, x2, x3) = true := by simp [tripLt, h]
      rw [h2] at hT; cases hT
  subst e2
  have e3 : x3 = y3 := by
    rcases lt_trichotomy x3 y3 with h | h | h
    · have hT : tripLt (x1, x2, x3) (x1, x2, y3) = true := by simp [tripLt, h]
      rw [h1] at hT; cases hT
    · exact h
    · have hT : tripLt (x1, x2, y3) (x1, x2, x3) = true := by simp [tripLt, h]
      rw [h2] at hT; cases hT
  subst e3
  rfl

lemma chapterLe_total (a b : ChapterData) : chapterLe a b ∨ chapterLe b a := by
  unfold chapterLe chapterLeB
  by_cases k1 : keyLtB (sortKeyJson a) (sortKeyJson b) = true
  · left; simp [k1]
  · by_cases k2 : keyLtB (sortKeyJson b) (sortKeyJson a) = true
    · right; simp [k2]
    · rcases Int.le_total a.start_sec b.start_sec with hs | hs
      · left
        simp only [Bool.not_eq_true] at k1 k2
        have hdec : decide (a.start_sec ≤ b.start_sec) = true := by
          simp only [decide_eq_true_eq]; exact hs
        simp [k1, k2, hdec]
      · right
        simp only [Bool.not_eq_true] at k1 k2
        have hdec : decide (b.start_sec ≤ a.start_sec) = true := by
          simp only [decide_eq_true_eq]; exact hs
        simp [k1, k2, hdec]

lemma chapterLe_trans {a b c : ChapterData} (h1 : chapterLe a b) (h2 : chapterLe b c) :
    chapterLe a c := by
  unfold chapterLe chapterLeB at h1 h2 ⊢
  unfold keyLtB at h1 h2 ⊢
  set ta := keyTriple (sortKeyJson a)
  set tb := keyTriple (sortKeyJson b)
  set tc := keyTriple (sortKeyJson c)
  simp only [Bool.or_eq_true, Bool.and_eq_true, Bool.not_eq_true', decide_eq_true_eq]
    at h1 h2 ⊢
  rcases h1 with h1 | ⟨⟨h1a, h1b⟩, h1c⟩
  · rcases h2 with h2 | ⟨⟨h2a, h2b⟩, h2c⟩
    · left; exact tripLt_trans h1 h2
    · left; rwa [tripLt_connex h2a h2b] at h1
  · rcases h2 with h2 | ⟨⟨h2a, h2b⟩, h2c⟩
    · left; rwa [← tripLt_connex h1a h1b] at h2
    · right
      rw [tripLt_connex h1a h1b]
      exact ⟨⟨h2a, h2b⟩, le_trans h1c h2c⟩

instance : IsTotal ChapterData chapterLe := ⟨chapterLe_total⟩

instance : IsTrans ChapterData chapterLe := ⟨fun _ _ _ => chapterLe_trans⟩

lemma sortKeyJson_num {a : ChapterData} (h : a.order = .null ∨ ∃ n, a.order = .num n) :
    sortKeyJson a = .num (orderKeyInt a) := by
  rcases h with h | ⟨n, h⟩
  · simp [sortKeyJson, orderKeyInt, Json.orElse, Json.truthy, h]
  · by_cases hn : n = 0
    · subst hn; simp [sortKeyJson, orderKeyInt, Json.orElse, Json.truthy, h]
    · simp [sortKeyJson, orderKeyInt, Json.orElse, Json.truthy, h, hn]

lemma keyLtB_num (v w : Int) : keyLtB (.num v) (.num w) = decide (v < w) := by
  by_cases h : v < w
  · simp [keyLtB, keyTriple, tripLt, h]
  · simp [keyLtB, keyTriple, tripLt, h, lt_irrefl]

lemma chapterLe_to_spec {a b : ChapterData}
    (hA : a.order = .null ∨ ∃ n, a.order = .num n)
    (hB : b.order = .null ∨ ∃ n, b.order = .num n)
    (h : chapterLe a b) : chapterSpecLe a b := by
  unfold chapterLe chapterLeB at h
  dsimp only at h
  rw [sortKeyJson_num hA, sortKeyJson_num hB, keyLtB_num, keyLtB_num] at h
  simp only [Bool.or_eq_true, Bool.and_eq_true, Bool.not_eq_true', decide_eq_true_eq,
    decide_eq_false_iff_not, not_lt] at h
  unfold chapterSpecLe
  rcases h with h | ⟨⟨h1, h2⟩, h3⟩
  · exact Or.inl h
  · exact Or.inr ⟨le_antisymm h2 h1, h3⟩

lemma snap_nonempty_eq (cands : List ChapterData) (segs : List TranscriptLine)
    (hc : cands ≠ []) (hs : segs ≠ []) :
    _snap_chapters_to_transcript cands segs =
      cands.map (snapOne (segs.map TranscriptLine.start_sec) (segs.map lineEnd)
        (pyListMin (segs.map TranscriptLine.start_sec))
        (pyListMax (segs.map lineEnd))) := by
  unfold _snap_chapters_to_transcript
  have h1 : cands.isEmpty = false := by simpa [List.isEmpty_iff] using hc
  have h2 : segs.isEmpty = false := by simpa [List.isEmpty_iff] using hs
  simp [h1, h2]

lemma generate_llm_eq (transcript_lines : List TranscriptLine) (max_chapters : Int)
    (d : Json) (cands : List ChapterData)
    (hne : transcript_lines ≠ []) (ht : d.truthy = true)
    (hp : _parse_llm_response d = .ok cands) (hc : cands ≠ []) :
    generate_chapters_from_transcript transcript_lines max_chapters (some d) =
      .ok (pySliceTo
        (List.insertionSort chapterLe
          (_snap_chapters_to_transcript cands
            (List.insertionSort lineLe transcript_lines)))
        (pyOrInt max_chapters 10)) := by
  unfold generate_chapters_from_transcript
  have hE : transcript_lines.isEmpty = false := by simpa [List.isEmpty_iff] using hne
  have hcE : cands.isEmpty = false := by simpa [List.isEmpty_iff] using hc
  simp [hE, ht, hp, hcE, except_bind_ok, except_pure]

/-- **C1** counterexample: one well-formed segment `(0, 3)`, the model
unavailable, `max_chapters = 10`: the returned fallback list has chapters
such as `(start=4, end=3)` with `end_sec < start_sec` (and starts above the
duration), violating the claimed final-list invariant. -/
theorem C1_counterexample :
    (generate_chapters_from_transcript [⟨0, some 3, "x"⟩] 10 none).map
        (List.map (fun c => (c.start_sec, c.end_sec))) =
      .ok [(0, some 1), (1, some 2), (2, some 3), (3, some 3), (4, some 3),
           (5, some 3), (6, some 3), (7, some 3), (8, some 3), (9, some 3)] ∧
    linesWellFormed [⟨0, some 3, "x"⟩] ∧
    ((generate_chapters_from_transcript [⟨0, some 3, "x"⟩] 10 none).map
        (fun cs => cs.all (fun c => decide (c.start_sec ≤ c.end_sec.getD c.start_sec)))) =
      .ok false := by
  refine ⟨rfl, ?_, rfl⟩
  intro l hl
  fin_cases hl <;> decide

/-- **C1** (corrected): the claimed final-list invariant holds on the
model-backed path: whenever the transcript is non-empty and satisfies the
data model's `end_sec ≥ start_sec` invariant, `max_chapters ≥ 0`, and the
(truthy) model response parses to a non-empty candidate list whose `order`
fields are integers or null, the returned chapter list is non-empty, has
length at most `max_chapters` (10 when 0), every chapter's `start_sec` and
`end_sec` lie within `[min(segment starts), max(segment ends-or-starts)]`
with `end_sec ≥ start_sec`, and the list is sorted ascending by
`(order or 0, start_sec)`.  (On the fallback path the invariant fails — see
the counterexample.) -/
theorem C1_generate_invariant (transcript_lines : List TranscriptLine)
    (max_chapters : Int) (d : Json) (cands : List ChapterData)
    (hne : transcript_lines ≠ [])
    (hwf : linesWellFormed transcript_lines)
    (hmc : 0 ≤ max_chapters)
    (htruthy : d.truthy = true)
    (hparse : _parse_llm_response d = .ok cands)
    (hcands : cands ≠ [])
    (horders : ∀ c ∈ cands, c.order = .null ∨ ∃ n, c.order = .num n) :
    ∃ out, generate_chapters_from_transcript transcript_lines max_chapters (some d) =
        .ok out ∧
      out ≠ [] ∧
      out.length ≤ (pyOrInt max_chapters 10).toNat ∧
      (∀ c ∈ out,
        pyListMin (transcript_lines.map TranscriptLine.start_sec) ≤ c.start_sec ∧
        c.start_sec ≤ pyListMax (transcript_lines.map lineEnd) ∧
        ∃ e, c.end_sec = some e ∧ c.start_sec ≤ e ∧
          pyListMin (transcript_lines.map TranscriptLine.start_sec) ≤ e ∧
          e ≤ pyListMax (transcript_lines.map lineEnd)) ∧
      List.Pairwise chapterSpecLe out := by
  classical
  set sorted_lines := List.insertionSort lineLe transcript_lines with hsl
  have hperm : sorted_lines.Perm transcript_lines := List.perm_insertionSort _ _
  have hsne : sorted_lines ≠ [] := by
    intro h0
    rw [h0] at hperm
    exact hne hperm.symm.eq_nil
  have hpermS : (sorted_lines.map TranscriptLine.start_sec).Perm
      (transcript_lines.map TranscriptLine.start_sec) := hperm.map _
  have hpermE : (sorted_lines.map lineEnd).Perm (transcript_lines.map lineEnd) :=
    hperm.map _
  have hSne : sorted_lines.map TranscriptLine.start_sec ≠ [] := by simpa using hsne
  have hEne : sorted_lines.map lineEnd ≠ [] := by simpa using hsne
  have hminEq : pyListMin (sorted_lines.map TranscriptLine.start_sec) =
      pyListMin (transcript_lines.map TranscriptLine.start_sec) :=
    pyListMin_perm hpermS hSne
  have hmaxEq : pyListMax (sorted_lines.map lineEnd) =
      pyListMax (transcript_lines.map lineEnd) :=
    pyListMax_perm hpermE hEne
  have hwfS : linesWellFormed sorted_lines := fun l hl => hwf l (hperm.mem_iff.mp hl)
  have hsnapEq : _snap_chapters_to_transcript cands sorted_lines =
      cands.map (snapOne (sorted_lines.map TranscriptLine.start_sec)
        (sorted_lines.map lineEnd)
        (pyListMin (sorted_lines.map TranscriptLine.start_sec))
        (pyListMax (sorted_lines.map lineEnd))) :=
    snap_nonempty_eq cands sorted_lines hcands hsne
  have hout := generate_llm_eq transcript_lines max_chapters d cands hne htruthy hparse hcands
  have hn1 : 1 ≤ pyOrInt max_chapters 10 := by
    unfold pyOrInt
    split <;> omega
  have h0n : (0 : Int) ≤ pyOrInt max_chapters 10 := by omega
  have hslice : pySliceTo
      (List.insertionSort chapterLe (_snap_chapters_to_transcript cands sorted_lines))
      (pyOrInt max_chapters 10) =
      (List.insertionSort chapterLe
        (_snap_chapters_to_transcript cands sorted_lines)).take
        (pyOrInt max_chapters 10).toNat := by
    simp [pySliceTo, h0n]
  have hpermC : (List.insertionSort chapterLe
      (_snap_chapters_to_transcript cands sorted_lines)).Perm
      (_snap_chapters_to_transcript cands sorted_lines) :=
    List.perm_insertionSort _ _
  have hlenC : (List.insertionSort chapterLe
      (_snap_chapters_to_transcript cands sorted_lines)).length = cands.length := by
    rw [hpermC.length_eq, hsnapEq, List.length_map]
  have hmemSnap : ∀ c ∈ List.insertionSort chapterLe
      (_snap_chapters_to_transcript cands sorted_lines),
      ∃ c0 ∈ cands, c = snapOne (sorted_lines.map TranscriptLine.start_sec)
        (sorted_lines.map lineEnd)
        (pyListMin (sorted_lines.map TranscriptLine.start_sec))
        (pyListMax (sorted_lines.map lineEnd)) c0 := by
    intro c hc
    have := hpermC.subset hc
    rw [hsnapEq] at this
    obtain ⟨c0, hc0, rfl⟩ := List.mem_map.mp this
    exact ⟨c0, hc0, rfl⟩
  refine ⟨(List.insertionSort chapterLe
      (_snap_chapters_to_transcript cands sorted_lines)).take
      (pyOrInt max_chapters 10).toNat,
    by rw [hout, hslice], ?_, ?_, ?_, ?_⟩
  · intro h0
    rcases List.take_eq_nil_iff.mp h0 with h0 | h0
    · omega
    · rw [h0] at hlenC
      have := List.length_pos.mpr hcands
      simp at hlenC
      omega
  · rw [List.length_take]
    exact min_le_left _ _
  · intro c hc
    obtain ⟨c0, hc0, rfl⟩ := hmemSnap c (List.take_subset _ _ hc)
    rw [← hminEq, ← hmaxEq]
    obtain ⟨hmemS, e, hsome, hends, hle⟩ :=
      snapOne_spec (sorted_lines.map TranscriptLine.start_sec) (sorted_lines.map lineEnd)
        (pyListMin (sorted_lines.map TranscriptLine.start_sec))
        (pyListMax (sorted_lines.map lineEnd)) c0 hSne hEne
    have startBound : ∀ x ∈ sorted_lines.map TranscriptLine.start_sec,
        pyListMin (sorted_lines.map TranscriptLine.start_sec) ≤ x ∧
        x ≤ pyListMax (sorted_lines.map lineEnd) := by
      intro x hx
      refine ⟨pyListMin_le hx, ?_⟩
      obtain ⟨l, hl, rfl⟩ := List.mem_map.mp hx
      exact le_trans (hwfS l hl) (le_pyListMax (List.mem_map.mpr ⟨l, hl, rfl⟩))
    have endBound : ∀ x ∈ sorted_lines.map lineEnd,
        pyListMin (sorted_lines.map TranscriptLine.start_sec) ≤ x ∧
        x ≤ pyListMax (sorted_lines.map lineEnd) := by
      intro x hx
      refine ⟨?_, le_pyListMax hx⟩
      obtain ⟨l, hl, rfl⟩ := List.mem_map.mp hx
      exact le_trans (pyListMin_le (List.mem_map.mpr ⟨l, hl, rfl⟩)) (hwfS l hl)
    obtain ⟨hs1, hs2⟩ := startBound _ hmemS
    refine ⟨hs1, hs2, e, hsome, hle, ?_⟩
    rcases hends with hmemE | heq
    · exact endBound _ hmemE
    · rw [heq]
      exact ⟨hs1, hs2⟩
  · have hsorted : List.Sorted chapterLe (List.insertionSort chapterLe
        (_snap_chapters_to_transcript cands sorted_lines)) :=
      List.sorted_insertionSort chapterLe _
    have htake : List.Pairwise chapterLe ((List.insertionSort chapterLe
        (_snap_chapters_to_transcript cands sorted_lines)).take
        (pyOrInt max_chapters 10).toNat) :=
      List.Pairwise.sublist (List.take_sublist _ _) hsorted
    refine htake.imp_of_mem ?_
    intro x y hx hy hr
    obtain ⟨x0, hx0, rfl⟩ := hmemSnap x (List.take_subset _ _ hx)
    obtain ⟨y0, hy0, rfl⟩ := hmemSnap y (List.take_subset _ _ hy)
    have hxo : (snapOne (sorted_lines.map TranscriptLine.start_sec)
        (sorted_lines.map lineEnd)
        (pyListMin (sorted_lines.map TranscriptLine.start_sec))
        (pyListMax (sorted_lines.map lineEnd)) x0).order = x0.order := rfl
    have hyo : (snapOne (sorted_lines.map TranscriptLine.start_sec)
        (sorted_lines.map lineEnd)
        (pyListMin (sorted_lines.map TranscriptLine.start_sec))
        (pyListMax (sorted_lines.map lineEnd)) y0).order = y0.order := rfl
    exact chapterLe_to_spec (by rw [hxo]; exact horders x0 hx0)
      (by rw [hyo]; exact horders y0 hy0) hr

/-- Witness for C1: two well-formed segments, a truthy model response whose
single parsed candidate has an integer order. -/
theorem C1_witness :
    linesWellFormed [⟨0, some 10, "a"⟩, ⟨10, some 20, "b"⟩] ∧
    _parse_llm_response (.obj [("choices", .arr [.obj [("message", .obj [("content",
      .str "\x7b\"chapters\": [\x7b\"index\": 1, \"start\": \"00:00:05\", \"end\": \"00:00:15\", \"title\": \"T\"\x7d]\x7d")])]])]) =
      .ok [⟨.str "T", 5, some 15, .null, none, "auto_llm", none, .num 1⟩] ∧
    ∃ out, generate_chapters_from_transcript [⟨0, some 10, "a"⟩, ⟨10, some 20, "b"⟩] 10
        (some (.obj [("choices", .arr [.obj [("message", .obj [("content",
          .str "\x7b\"chapters\": [\x7b\"index\": 1, \"start\": \"00:00:05\", \"end\": \"00:00:15\", \"title\": \"T\"\x7d]\x7d")])]])])) =
        .ok out ∧
      out ≠ [] ∧
      out.length ≤ (pyOrInt 10 10).toNat ∧
      (∀ c ∈ out,
        pyListMin (([⟨0, some 10, "a"⟩, ⟨10, some 20, "b"⟩] :
          List TranscriptLine).map TranscriptLine.start_sec) ≤ c.start_sec ∧
        c.start_sec ≤ pyListMax (([⟨0, some 10, "a"⟩, ⟨10, some 20, "b"⟩] :
          List TranscriptLine).map lineEnd) ∧
        ∃ e, c.end_sec = some e ∧ c.start_sec ≤ e ∧
          pyListMin (([⟨0, some 10, "a"⟩, ⟨10, some 20, "b"⟩] :
            List TranscriptLine).map TranscriptLine.start_sec) ≤ e ∧
          e ≤ pyListMax (([⟨0, some 10, "a"⟩, ⟨10, some 20, "b"⟩] :
            List TranscriptLine).map lineEnd)) ∧
      List.Pairwise chapterSpecLe out :=
  ⟨by intro l hl; fin_cases hl <;> decide, rfl,
   C1_generate_invariant [⟨0, some 10, "a"⟩, ⟨10, some 20, "b"⟩] 10
     (.obj [("choices", .arr [.obj [("message", .obj [("content",
       .str "\x7b\"chapters\": [\x7b\"index\": 1, \"start\": \"00:00:05\", \"end\": \"00:00:15\", \"title\": \"T\"\x7d]\x7d")])]])])
     [⟨.str "T", 5, some 15, .null, none, "auto_llm", none, .num 1⟩]
     (by decide) (by intro l hl; fin_cases hl <;> decide) (by decide) rfl rfl (by simp)
     (by
       intro c hc
       rw [List.mem_singleton] at hc
       subst hc
       exact Or.inr ⟨1, rfl⟩)⟩
